import Mathlib

/-!
Verification of the text-rpg engine (`rpg.py`) against its specification.

The Python source is shallowly embedded: classes become structures or tagged
variants, Python `dict`s become association lists with insertion-order
semantics (`Dict` below), object references into the world graph become
location ids looked up in the world table, and the body of one iteration of
`main`'s game loop becomes the function `tick`.  Machine integers are `Int`
(hit points, which may go negative) or `Nat` (the non-negative numeric fields
of world data: attack power, heal/damage amounts).  The interactive inputs of
a tick are passed explicitly: the chosen command, the stream of retreat rolls
(`random.random() < 0.5` outcomes), and the target picked in the offensive
item menu.
-/

namespace RPG

/-- Python `dict` semantics over an association list: iteration in insertion
order, key update in place. -/
abbrev Dict (α : Type) : Type := List (String × α)

def dictLookup (l : Dict α) (k : String) : Option α :=
  match l with
  | [] => none
  | (k', v) :: rest => if k' = k then some v else dictLookup rest k

/-- `d[k] = v`: overwrite in place if the key exists (keeping its position),
otherwise append at the end, as a Python dict does. -/
def dictInsert (l : Dict α) (k : String) (v : α) : Dict α :=
  match l with
  | [] => [(k, v)]
  | (k', v') :: rest => if k' = k then (k, v) :: rest else (k', v') :: dictInsert rest k v

def dictInsertList (l : Dict α) (e : List (String × α)) : Dict α :=
  e.foldl (fun acc p => dictInsert acc p.1 p.2) l

/-- A quest entry of `player.quests`: `{state, name}`. -/
structure Quest where
  state : String
  name : String
deriving DecidableEq, Repr

/-- A condition clause `{type, ...params}` consumed by `Player.check_conditions`.
Clause types other than `has_item` and `quest_completed` are carried as
`other` with their type tag. -/
inductive Cond where
  | has_item (item_id : String)
  | quest_completed (quest_id : String)
  | other (ctype : String)
deriving DecidableEq, Repr

/-- The `Item` class hierarchy of `rpg.py` as a tagged variant:
`Item`, `Potion`, `EffectPotion`, `OffensiveItem`, `Container`. -/
inductive Item where
  | base (id name description : String) (value : Int)
  | potion (id name description : String) (value : Int) (heal_amount : Nat)
  | effectPotion (id name description : String) (value : Int) (effect : String) (duration : Int)
  | offensive (id name description : String) (value : Int) (damage_amount : Nat)
  | container (id name description : String) (value : Int) (contained_items : List Item)

def Item.id : Item → String
  | .base i _ _ _ => i
  | .potion i _ _ _ _ => i
  | .effectPotion i _ _ _ _ _ => i
  | .offensive i _ _ _ _ => i
  | .container i _ _ _ _ => i

def Item.name : Item → String
  | .base _ n _ _ => n
  | .potion _ n _ _ _ => n
  | .effectPotion _ n _ _ _ _ => n
  | .offensive _ n _ _ _ => n
  | .container _ n _ _ _ => n

/-- A `Monster` instance (already deep-copied into a location, so `id` is the
per-instance id `prototypeId:index` once placed). -/
structure Monster where
  id : String
  name : String
  monster_type : String
  hp : Int
  max_hp : Int
  attack_power : Nat
  drops : List Item
  completes_quest_id : Option String

/-- `Monster.is_alive` / `Character.is_alive`: alive iff hp > 0. -/
def Monster.is_alive (m : Monster) : Bool := m.hp > 0

/-- One entry of an NPC dialogue list: `{text, conditions}`. -/
structure DialogueEntry where
  text : String
  conditions : List Cond

/-- NPC dialogue: either a flat string or an ordered list of conditional entries. -/
inductive Dialogue where
  | flat (text : String)
  | entries (es : List DialogueEntry)

structure NPC where
  id : String
  name : String
  dialogue : Dialogue
  hp : Int
  attack_power : Nat
  gives_items_on_talk : List String

/-- One entry of `location.spawns_on_defeat`. -/
structure SpawnData where
  monster_id_to_spawn : String
  message : String

/-- A conditional exit (`ConditionalExit` namedtuple); the destination object
reference is modeled by the destination location id. -/
structure CExit where
  direction : String
  destination : String
  description : String
  conditions : List Cond

/-- The `Location` subclass used, as a tag (`CityLocation`, `WildernessLocation`,
`DungeonLocation`, `SwampLocation`, `VolcanicLocation` or plain `Location`). -/
inductive LocKind where
  | base | city | wilderness | dungeon | swamp | volcanic
deriving DecidableEq, Repr

/-- A `Location`; `exits` maps directions to destination location ids.
`spawn_chance` (an unused float on Wilderness variants) is omitted. -/
structure Location where
  id : String
  name : String
  description : String
  exits : Dict String
  npcs : List NPC
  monsters : List Monster
  items : List Item
  conditional_exits : List CExit
  spawns_on_defeat : Dict SpawnData
  kind : LocKind
  hazard_description : String
  hidden_description : String

structure Player where
  id : String
  name : String
  hp : Int
  max_hp : Int
  attack_power : Nat
  inventory : List Item
  current_location : String
  previous_location : String
  status_effects : Dict Int
  quests : Dict Quest
  discovered_locations : List String

/-- `Player.check_conditions` (rpg.py lines 174-185): logical AND with early
return `False`; a missing quest yields `False`; unknown clause types are
skipped. -/
def Player.check_conditions (p : Player) : List Cond → Bool
  | [] => true
  | c :: rest =>
    match c with
    | .has_item iid =>
      if p.inventory.any (fun item => item.id == iid) then p.check_conditions rest else false
    | .quest_completed qid =>
      if (match dictLookup p.quests qid with
          | some q => q.state == "completed"
          | none => false : Bool) then p.check_conditions rest else false
    | .other _ => p.check_conditions rest

/-- `Potion.use(target)` with the player as target: heals `target.hp` by
`heal_amount` and returns the message. -/
def potionUse (pname : String) (heal : Nat) (target : Player) : String × Player :=
  (target.name ++ " uses the " ++ pname ++ " and heals for " ++ toString heal ++ " HP.",
   { target with hp := target.hp + heal })

/-- `EffectPotion.use(target)`: sets `target.status_effects[effect] = duration`. -/
def effectPotionUse (pname : String) (effect : String) (duration : Int) (target : Player) :
    String × Player :=
  (target.name ++ " uses the " ++ pname ++ ". You feel a strange energy course through you.",
   { target with status_effects := dictInsert target.status_effects effect duration })

/-- `OffensiveItem.use(target)` with a monster target (combat path). -/
def offensiveUseM (iname : String) (dmg : Nat) (target : Monster) : String × Monster :=
  ("You use the " ++ iname ++ " on " ++ target.name ++ ", dealing " ++ toString dmg ++ " damage!",
   { target with hp := target.hp - dmg })

/-- `OffensiveItem.use(target)` with the player as target (this is what the
explore-mode `use` branch does: `item.use(player)`). -/
def offensiveUseP (iname : String) (dmg : Nat) (target : Player) : String × Player :=
  ("You use the " ++ iname ++ " on " ++ target.name ++ ", dealing " ++ toString dmg ++ " damage!",
   { target with hp := target.hp - dmg })

/-- `Container.use(target_player)`: empty containers only report; otherwise all
contained items are appended to the player's inventory and the container is
emptied.  Returns (message, contents transferred, emptied container flag). -/
def containerUse (cname : String) (contained : List Item) (target : Player) :
    String × Player × List Item :=
  if contained.isEmpty then
    ("You open the " ++ cname ++ ", but it's empty.", target, contained)
  else
    ("You open the " ++ cname ++ " and find:\n" ++
       String.join (contained.map (fun it => "- " ++ it.name ++ "\n")),
     { target with inventory := target.inventory ++ contained }, [])

/-- `Location.describe` shared body (the base `Location.describe`). -/
def Location.baseDescribe (loc : Location) (p : Player) : String :=
  let d0 := "**" ++ loc.name ++ "**\n" ++ loc.description ++ "\n"
  let d1 := loc.conditional_exits.foldl
    (fun acc ce => if p.check_conditions ce.conditions then acc ++ ce.description ++ "\n" else acc) d0
  let d2 := if loc.npcs.isEmpty then d1 else
    d1 ++ "You see: " ++ String.intercalate ", " (loc.npcs.map (fun n => n.name)) ++ "\n"
  let d3 := if loc.monsters.isEmpty then d2 else
    d2 ++ "DANGER: " ++ String.intercalate ", " (loc.monsters.map (fun m => m.name)) ++ " is here!\n"
  if loc.items.isEmpty then d3 else
    d3 ++ "On the ground: " ++ String.intercalate ", " (loc.items.map (fun i => i.name)) ++ "\n"

/-- `describe` with the subclass overrides: Dungeon appends its hazard line,
Swamp hides everything unless an item literally named "Lantern" is carried. -/
def Location.describe (loc : Location) (p : Player) : String :=
  match loc.kind with
  | .dungeon => loc.baseDescribe p ++ loc.hazard_description ++ "\n"
  | .swamp =>
    if p.inventory.any (fun item => item.name == "Lantern") then loc.baseDescribe p
    else loc.hidden_description
  | _ => loc.baseDescribe p

/-- Record a location id in `discovered_locations` (a Python set: add). -/
def Player.discover (p : Player) : Player :=
  if p.current_location ∈ p.discovered_locations then p
  else { p with discovered_locations := p.discovered_locations ++ [p.current_location] }

/-- `Player.move` (rpg.py lines 149-169): static exits first, then the first
conditional exit with a matching direction whose conditions hold. -/
def Player.move (p : Player) (locations : Dict Location) (direction : String) : Player × Bool :=
  match dictLookup locations p.current_location with
  | none => (p, false)
  | some loc =>
    match dictLookup loc.exits direction with
    | some dest =>
      (Player.discover { p with previous_location := p.current_location, current_location := dest },
       true)
    | none =>
      match loc.conditional_exits.find?
          (fun ce => ce.direction == direction && p.check_conditions ce.conditions) with
      | some ce =>
        (Player.discover
           { p with previous_location := p.current_location, current_location := ce.destination },
         true)
      | none => (p, false)

/-- One command of the fixed verb grammar handed to the game loop
(`command.split()` with the verb's argument). -/
inductive Cmd where
  | look
  | map
  | go (direction : String)
  | get (item_id : String)
  | inventory
  | talk (npc_id : String)
  | use (item_id : String)
  | attack (monster_id : String)
  | retreat
  | quit
deriving DecidableEq, Repr

/-- The mutable state of `main`: the player, the linked world
(`all_locations`), the item and monster prototype tables built by
`load_world_from_data`, the game mode string and the message of the last tick. -/
structure GameState where
  player : Player
  locations : Dict Location
  all_items : Dict Item
  all_monsters : Dict Monster
  game_mode : String
  message : String

def emptyLocation : Location :=
  ⟨"", "", "", [], [], [], [], [], [], .base, "", ""⟩

/-- Dereference a location id (location references are always valid in the
linked world; the default is never reached on states built by the loader). -/
def GameState.getLoc (s : GameState) (lid : String) : Location :=
  (dictLookup s.locations lid).getD emptyLocation

def GameState.setLoc (s : GameState) (lid : String) (loc : Location) : GameState :=
  { s with locations := dictInsert s.locations lid loc }

def GameState.setMonsters (s : GameState) (lid : String) (ms : List Monster) : GameState :=
  s.setLoc lid { s.getLoc lid with monsters := ms }

def GameState.setItems (s : GameState) (lid : String) (its : List Item) : GameState :=
  s.setLoc lid { s.getLoc lid with items := its }

def GameState.setNpcs (s : GameState) (lid : String) (ns : List NPC) : GameState :=
  s.setLoc lid { s.getLoc lid with npcs := ns }

def GameState.curLoc (s : GameState) : Location := s.getLoc s.player.current_location

/-! ### The AsciiMap class

`AsciiMap.generate` builds the accessible graph (`_build_accessible_graph`,
a BFS which mutates `self.accessible_graph` in place), assigns grid
coordinates (`_assign_coordinates`, reassigning `self.coords` wholesale),
computes the visible set and renders.  The BFS loops are written with an
explicit fuel that over-approximates the number of queue pops (each location
id is enqueued at most once, guarded by the visited set). -/

/-- The accessible exits of one location: its static exits dict, updated with
every conditional exit whose conditions currently hold. -/
def aexitsOfLoc (player : Player) (loc : Location) : Dict String :=
  loc.conditional_exits.foldl
    (fun d ce =>
      if player.check_conditions ce.conditions then dictInsert d ce.direction ce.destination else d)
    loc.exits

/-- The inner dict `_build_accessible_graph` stores for a given id, as a
function of the id alone (used by the idempotence proof). -/
def aexitsOf (alls : Dict Location) (player : Player) (cid : String) : Dict String :=
  match dictLookup alls cid with
  | some loc => aexitsOfLoc player loc
  | none => []

/-- The BFS loop body of `_build_accessible_graph`: pop an id, store its
accessible exits under it, enqueue unvisited destinations. -/
def buildGraphGo (alls : Dict Location) (player : Player) :
    Nat → List String → List String → Dict (Dict String) → Dict (Dict String)
  | 0, _, _, g => g
  | _ + 1, [], _, g => g
  | fuel + 1, cid :: qrest, visited, g =>
    match dictLookup alls cid with
    | none => buildGraphGo alls player fuel qrest visited g
    | some loc =>
      let aexits := aexitsOfLoc player loc
      let g' := dictInsert g cid aexits
      let step := aexits.foldl
        (fun (acc : List String × List String) p =>
          if acc.1.contains p.2 then acc else (acc.1 ++ [p.2], acc.2 ++ [p.2]))
        (visited, [])
      buildGraphGo alls player fuel (qrest ++ step.2) step.1 g'

def buildFuel (alls : Dict Location) : Nat :=
  1 + alls.foldl (fun n p => n + p.2.exits.length + p.2.conditional_exits.length) 0

/-- `_build_accessible_graph`, acting on the incoming `self.accessible_graph`. -/
def buildGraph (alls : Dict Location) (player : Player) (g : Dict (Dict String)) :
    Dict (Dict String) :=
  buildGraphGo alls player (buildFuel alls) [player.current_location] [player.current_location] g

/-- The entries the BFS would store, independently of the incoming graph
(`_build_accessible_graph` never reads `self.accessible_graph`). -/
def buildEntries (alls : Dict Location) (player : Player) :
    Nat → List String → List String → List (String × Dict String)
  | 0, _, _ => []
  | _ + 1, [], _ => []
  | fuel + 1, cid :: qrest, visited =>
    match dictLookup alls cid with
    | none => buildEntries alls player fuel qrest visited
    | some loc =>
      let aexits := aexitsOfLoc player loc
      let step := aexits.foldl
        (fun (acc : List String × List String) p =>
          if acc.1.contains p.2 then acc else (acc.1 ++ [p.2], acc.2 ++ [p.2]))
        (visited, [])
      (cid, aexits) :: buildEntries alls player fuel (qrest ++ step.2) step.1

/-- The `while (nx, ny) in self.coords.values(): nx += 1` collision loop. -/
def findFreeX (co : Dict (Int × Int)) : Nat → Int → Int → Int × Int
  | 0, x, y => (x, y)
  | fuel + 1, x, y =>
    if co.any (fun p => p.2 == (x, y)) then findFreeX co fuel (x + 1) y else (x, y)

def coordsFuelOf (g : Dict (Dict String)) : Nat :=
  1 + g.foldl (fun n p => n + p.2.length) 0

/-- The BFS loop body of `_assign_coordinates`. -/
def assignCoordsGo (g : Dict (Dict String)) :
    Nat → List String → Dict (Int × Int) → Dict (Int × Int)
  | 0, _, co => co
  | _ + 1, [], co => co
  | fuel + 1, cid :: rest, co =>
    let c := (dictLookup co cid).getD (0, 0)
    let step := ((dictLookup g cid).getD []).foldl
      (fun (acc : Dict (Int × Int) × List String) p =>
        if (dictLookup acc.1 p.2).isSome then acc
        else
          let off : Option (Int × Int) :=
            if p.1 == "north" then some (0, -1)
            else if p.1 == "south" then some (0, 1)
            else if p.1 == "east" then some (1, 0)
            else if p.1 == "west" then some (-1, 0)
            else none
          match off with
          | none => acc
          | some o =>
            let pos := findFreeX acc.1 (acc.1.length + 1) (c.1 + o.1) (c.2 + o.2)
            (dictInsert acc.1 p.2 pos, acc.2 ++ [p.2]))
      (co, [])
    assignCoordsGo g fuel (rest ++ step.2) step.1

/-- `_assign_coordinates`: `self.coords` is reset to `{start: (0,0)}` first. -/
def assignCoordinates (player : Player) (g : Dict (Dict String)) : Dict (Int × Int) :=
  assignCoordsGo g (coordsFuelOf g) [player.current_location] [(player.current_location, (0, 0))]

/-- `_get_visible_locations`: discovered locations plus their accessible
neighbors (a Python set; modeled as a duplicate-free list, all uses below are
membership tests or order-insensitive folds). -/
def visibleLocations (player : Player) (g : Dict (Dict String)) : List String :=
  player.discovered_locations.foldl
    (fun vis lid =>
      match dictLookup g lid with
      | none => vis
      | some inner => inner.foldl (fun v p => if v.contains p.2 then v else v ++ [p.2]) vis)
    player.discovered_locations

def spaces (n : Nat) : String := String.mk (List.replicate n ' ')

/-- CPython `str.center`: `marg = width - len; left = marg//2 + (marg & width & 1)`. -/
def pyCenter (s : String) (width : Nat) : String :=
  if s.length ≥ width then s
  else
    let marg := width - s.length
    let left := marg / 2 + (marg &&& width &&& 1)
    spaces left ++ s ++ spaces (marg - left)

/-- `str.rstrip()` on lines whose only whitespace is the space character. -/
def pyRstrip (s : String) : String :=
  String.mk ((s.toList.reverse.dropWhile (fun c => c == ' ')).reverse)

/-- `bool(line.strip())` on lines whose only whitespace is the space character. -/
def pyStripNonempty (s : String) : Bool :=
  s.toList.any (fun c => c != ' ')

/-- `_render_map`.  Grid cells are found by coordinate lookup (coordinates of
distinct visible locations are pairwise distinct thanks to the collision
avoidance, so first-match equals the Python loop's last-write). -/
def renderMap (alls : Dict Location) (player : Player) (g : Dict (Dict String))
    (coords : Dict (Int × Int)) (visible : List String) : String :=
  if coords.isEmpty then "Map is empty."
  else
    let visible_coords := coords.filter (fun p => visible.contains p.1)
    if visible_coords.isEmpty then "You haven't discovered enough to draw a map."
    else
      let xs := visible_coords.map (fun p => p.2.1)
      let ys := visible_coords.map (fun p => p.2.2)
      let min_x := xs.foldl min (xs.headD 0)
      let min_y := ys.foldl min (ys.headD 0)
      let norm : Dict (Int × Int) :=
        visible_coords.map (fun p => (p.1, (p.2.1 - min_x, p.2.2 - min_y)))
      let nxs := norm.map (fun p => p.2.1)
      let nys := norm.map (fun p => p.2.2)
      let max_x := nxs.foldl max (nxs.headD 0)
      let max_y := nys.foldl max (nys.headD 0)
      let max_width := visible.foldl
        (fun w lid =>
          if player.discovered_locations.contains lid then
            match dictLookup alls lid with
            | some loc => max w (loc.name.length + 4)
            | none => w
          else w)
        ("[ ??? ]".length)
      let lines := (List.range (max_y.toNat + 1)).foldl
        (fun (out : List String) y =>
          let cell_fold := (List.range (max_x.toNat + 1)).foldl
            (fun (acc : String × String) x =>
              match norm.find? (fun p => p.2 == ((x : Int), (y : Int))) with
              | none => (acc.1 ++ spaces (max_width + 3), acc.2 ++ spaces (max_width + 3))
              | some cellp =>
                let lid := cellp.1
                let node_str :=
                  if player.discovered_locations.contains lid then
                    match dictLookup alls lid with
                    | some loc =>
                      let nm := if loc.id == player.current_location then
                          "*" ++ loc.name ++ "*"
                        else loc.name
                      "[" ++ nm ++ "]"
                    | none => "[ ??? ]"
                  else "[ ??? ]"
                let node_line := acc.1 ++ pyCenter node_str max_width
                let exits := (dictLookup g lid).getD []
                let node_line :=
                  match dictLookup exits "east" with
                  | some en =>
                    if visible.contains en &&
                        (match dictLookup norm en with
                         | some q => q.1 > (x : Int)
                         | none => false : Bool) then node_line ++ "---"
                    else node_line ++ "   "
                  | none => node_line ++ "   "
                let conn_line :=
                  match dictLookup exits "south" with
                  | some sn =>
                    if visible.contains sn &&
                        (match dictLookup norm sn with
                         | some q => q.2 > (y : Int)
                         | none => false : Bool) then
                      acc.2 ++ pyCenter "|" max_width ++ "   "
                    else acc.2 ++ spaces (max_width + 3)
                  | none => acc.2 ++ spaces (max_width + 3)
                (node_line, conn_line))
            ("", "")
          let out := out ++ [pyRstrip cell_fold.1]
          if pyStripNonempty cell_fold.2 then out ++ [pyRstrip cell_fold.2] else out)
        []
      String.intercalate "\n" lines

/-- The mutable fields of an `AsciiMap` object (`__init__` leaves both empty;
`main` constructs a fresh object for every `map` command). -/
structure AsciiMap where
  accessible_graph : Dict (Dict String)
  coords : Dict (Int × Int)

def AsciiMap.init : AsciiMap := ⟨[], []⟩

/-- `AsciiMap.generate`, returning the rendered string together with the
object state it leaves behind. -/
def AsciiMap.generate (alls : Dict Location) (player : Player) (m : AsciiMap) :
    String × AsciiMap :=
  let g := buildGraph alls player m.accessible_graph
  if g.isEmpty then ("You are lost in an unknown place.", { m with accessible_graph := g })
  else
    let co := assignCoordinates player g
    let visible := visibleLocations player g
    (renderMap alls player g co visible, ⟨g, co⟩)

/-! ### One iteration of the main game loop -/

/-- Split a list at the first element satisfying `pred`
(the semantics of `next((x for x in l if pred), None)` followed by
`l.remove(x)` / in-place mutation of that same object). -/
def splitAtFirst (pred : α → Bool) : List α → Option (List α × α × List α)
  | [] => none
  | a :: rest =>
    if pred a then some ([], a, rest)
    else (splitAtFirst pred rest).map (fun t => (a :: t.1, t.2.1, t.2.2))

/-- The explore-mode command dispatch (rpg.py lines 616-684); the incoming
message has already been reset to the empty string.  The returned flag is
`player_turn_taken` (set to `True` on entry, lowered only by `map`). -/
def exploreStep (s : GameState) (cmd : Cmd) : GameState × Bool :=
  match cmd with
  | .look => ({ s with message := s.curLoc.describe s.player }, true)
  | .map => ({ s with message := (AsciiMap.generate s.locations s.player AsciiMap.init).1 }, false)
  | .go dir =>
    let mv := s.player.move s.locations dir
    ({ s with player := mv.1,
              message := if mv.2 then "You go " ++ dir ++ "." else "You can't go that way." },
     true)
  | .get iid =>
    match splitAtFirst (fun i => i.id == iid) s.curLoc.items with
    | some t =>
      ({ s.setItems s.player.current_location (t.1 ++ t.2.2) with
         player := { s.player with inventory := s.player.inventory ++ [t.2.1] },
         message := "You pick up the " ++ (t.2.1).name ++ "." }, true)
    | none => ({ s with message := "You don't see that here." }, true)
  | .inventory =>
    ({ s with message :=
        if s.player.inventory.isEmpty then "Your inventory is empty."
        else "You are carrying:\n" ++
          String.intercalate "\n" (s.player.inventory.map (fun i => "- " ++ i.name)) }, true)
  | .talk nid =>
    match splitAtFirst (fun n => n.id == nid) s.curLoc.npcs with
    | none => ({ s with message := "There is no one here by that name." }, true)
    | some t =>
      let npc := t.2.1
      let give :=
        if npc.gives_items_on_talk.isEmpty then ("", s.player, npc)
        else
          let fold := npc.gives_items_on_talk.foldl
            (fun (acc : List Item × List String) gid =>
              if acc.1.any (fun it => it.id == gid) then acc
              else
                match dictLookup s.all_items gid with
                | some proto => (acc.1 ++ [proto], acc.2 ++ [proto.name])
                | none => acc)
            (s.player.inventory, [])
          let m := if fold.2.isEmpty then ""
            else "You received: " ++ String.intercalate ", " fold.2 ++ "!\n"
          (m, { s.player with inventory := fold.1 }, { npc with gives_items_on_talk := [] })
      let dtext :=
        match npc.dialogue with
        | .flat t => t
        | .entries es =>
          match es.find? (fun e => (give.2.1).check_conditions e.conditions) with
          | some e => e.text
          | none => npc.name ++ " has nothing to say to you right now."
      ({ s.setNpcs s.player.current_location (t.1 ++ [give.2.2] ++ t.2.2) with
         player := give.2.1,
         message := give.1 ++ "**" ++ npc.name ++ " says:** \"" ++ dtext ++ "\"" }, true)
  | .use iid =>
    match splitAtFirst (fun i => i.id == iid) s.player.inventory with
    | none => ({ s with message := "You don't have that item." }, true)
    | some t =>
      match t.2.1 with
      | .potion _ nm _ _ heal =>
        let u := potionUse nm heal s.player
        ({ s with player := { u.2 with inventory := t.1 ++ t.2.2 }, message := u.1 }, true)
      | .effectPotion _ nm _ _ eff dur =>
        let u := effectPotionUse nm eff dur s.player
        ({ s with player := { u.2 with inventory := t.1 ++ t.2.2 }, message := u.1 }, true)
      | .offensive _ nm _ _ dmg =>
        let u := offensiveUseP nm dmg s.player
        ({ s with player := u.2, message := u.1 }, true)
      | .container _ nm _ _ contained =>
        ({ s with
           player := { s.player with inventory :=
             if contained.isEmpty then t.1 ++ t.2.2 else (t.1 ++ t.2.2) ++ contained },
           message := (containerUse nm contained s.player).1 }, true)
      | .base _ nm _ _ =>
        ({ s with message := "You can't use " ++ nm ++ "." }, true)
  | _ => (s, true)

/-- One monster's parting blow during retreat (rpg.py lines 726-731): the
accumulator carries the roll index, the player's hp and the message. -/
def retreatStep (rolls : List Bool) (acc : Nat × Int × String) (m : Monster) :
    Nat × Int × String :=
  if rolls.getD acc.1 false then
    (acc.1 + 1, acc.2.1 - m.attack_power,
     acc.2.2 ++ "\nThe " ++ m.name ++ " strikes you for " ++ toString m.attack_power ++
       " damage as you escape!")
  else
    (acc.1 + 1, acc.2.1,
     acc.2.2 ++ "\nThe " ++ m.name ++ " swipes at you but misses!")

/-- One monster's unconditional hit during the enemy turn (rpg.py lines
796-798). -/
def enemyTurnStep (acc : Int × String) (m : Monster) : Int × String :=
  (acc.1 - m.attack_power,
   acc.2 ++ "\nThe " ++ m.name ++ " attacks you, dealing " ++ toString m.attack_power ++
     " damage.")

/-- The combat-mode command dispatch (rpg.py lines 687-742).  `rolls` models
the stream of `random.random() < 0.5` outcomes consumed by retreat (one per
monster, in list order); `offTarget` models the enemy picked (or cancel) in
the offensive item selection menu, as an index into the active monster list. -/
def combatCmd (s : GameState) (cmd : Cmd) (rolls : List Bool) (offTarget : Option Nat) :
    GameState × Bool :=
  let active := s.curLoc.monsters
  match cmd with
  | .attack mid =>
    match splitAtFirst (fun m => m.id == mid) active with
    | none => ({ s with message := "That monster isn't here." }, false)
    | some t =>
      let target := t.2.1
      ({ s.setMonsters s.player.current_location
           (t.1 ++ [{ target with hp := target.hp - s.player.attack_power }] ++ t.2.2) with
         message := "You attack the " ++ target.name ++ ", dealing " ++
           toString s.player.attack_power ++ " damage." }, true)
  | .use iid =>
    match splitAtFirst (fun i => i.id == iid) s.player.inventory with
    | none => ({ s with message := "You don't have that item." }, false)
    | some t =>
      match t.2.1 with
      | .offensive _ nm _ _ dmg =>
        match offTarget.bind (fun j => (active[j]?).map (fun m => (j, m))) with
        | some jm =>
          let u := offensiveUseM nm dmg jm.2
          ({ s.setMonsters s.player.current_location (active.set jm.1 u.2) with
             player := { s.player with inventory := t.1 ++ t.2.2 },
             message := u.1 }, true)
        | none => ({ s with message := "You decided not to use the item." }, false)
      | .potion _ nm _ _ heal =>
        let u := potionUse nm heal s.player
        ({ s with player := { u.2 with inventory := t.1 ++ t.2.2 }, message := u.1 }, true)
      | .effectPotion _ nm _ _ eff dur =>
        let u := effectPotionUse nm eff dur s.player
        ({ s with player := { u.2 with inventory := t.1 ++ t.2.2 }, message := u.1 }, true)
      | other =>
        ({ s with message := "You can't use " ++ other.name ++ " in combat." }, false)
  | .retreat =>
    let fold := active.foldl (retreatStep rolls) (0, s.player.hp, "You flee from combat!")
    if fold.2.1 > 0 then
      let threat := "The " ++ s.curLoc.name ++ " still harbors danger: " ++
        String.intercalate ", " (active.map (fun m => m.name ++ " (" ++ toString m.hp ++ " HP)"))
      let p' := { s.player with hp := fold.2.1, current_location := s.player.previous_location }
      ({ s with
          player := p'
          message := fold.2.2 ++ "\n\nYou escaped back to " ++
            (s.getLoc p'.current_location).name ++ ".\n\n" ++ threat
          game_mode := "explore" }, true)
    else
      ({ s with
          player := { s.player with hp := fold.2.1 }
          message := fold.2.2
          game_mode := "explore" }, true)
  | _ => (s, false)

/-- The fixed unique-item id set of the loot handler. -/
def uniqueItemIds : List String := ["lantern_1", "amulet_of_seeing_1"]

/-- Python `s.split(':')[0]`: the characters before the first colon. -/
def pySplitColonHead (s : String) : String :=
  String.mk (s.toList.takeWhile (fun c => c != ':'))

/-- Python `s.startswith(pre)`. -/
def pyStartsWith (s pre : String) : Bool :=
  pre.toList.isPrefixOf s.toList

/-- Python `s.replace('_', ' ')` (single-character pattern). -/
def pyReplaceUnderscores (s : String) : String :=
  String.mk (s.toList.map (fun c => if c == '_' then ' ' else c))

/-- The body of the loot loop, for one drop: the accumulator carries the
location's ground items (live) and the dropped-name report list. -/
def dropStep (inventory : List Item) (acc : List Item × List String) (item : Item) :
    List Item × List String :=
  let is_unique := uniqueItemIds.contains item.id
  let has_in_inventory := inventory.any (fun i => i.id == item.id)
  let on_ground_here := acc.1.any (fun i => i.id == item.id)
  if is_unique && (has_in_inventory || on_ground_here) then acc
  else (acc.1 ++ [item], acc.2 ++ [item.name])

/-- The inner loot loop (rpg.py lines 760-768): ground items are threaded, so
a unique drop is checked against the ground as it is at that moment. -/
def processDrops (drops : List Item) (inventory : List Item) (ground : List Item) :
    List Item × List String :=
  drops.foldl (dropStep inventory) (ground, [])

/-- Quest completion on defeat (rpg.py lines 753-756). -/
def defeatQuestStep (s : GameState) (m : Monster) : GameState :=
  match m.completes_quest_id with
  | some qid =>
    match dictLookup s.player.quests qid with
    | some q =>
      if q.state == "completed" then s
      else
        { s with
          player := { s.player with
            quests := dictInsert s.player.quests qid { q with state := "completed" } },
          message := s.message ++ "\n  Quest Completed: " ++ q.name ++ "!" }
    | none => s
  | none => s

/-- Loot drops on defeat (rpg.py lines 759-770). -/
def defeatDropsStep (s : GameState) (m : Monster) : GameState :=
  if m.drops.isEmpty then s
  else
    let d := processDrops m.drops s.player.inventory (s.getLoc s.player.current_location).items
    let s := s.setItems s.player.current_location d.1
    if d.2.isEmpty then s
    else { s with message := s.message ++ " It dropped a " ++ String.intercalate ", " d.2 ++ "." }

/-- Sequential spawning on defeat (rpg.py lines 772-786): the instance index
is the count of monsters in the live location whose id starts with the
prototype id of the monster to spawn. -/
def defeatSpawnStep (s : GameState) (m : Monster) : GameState :=
  let proto_id := pySplitColonHead m.id
  match dictLookup (s.getLoc s.player.current_location).spawns_on_defeat proto_id with
  | some sd =>
    match dictLookup s.all_monsters sd.monster_id_to_spawn with
    | some proto =>
      let cur_monsters := (s.getLoc s.player.current_location).monsters
      let instance_count :=
        (cur_monsters.filter (fun mon => pyStartsWith mon.id sd.monster_id_to_spawn)).length
      let new_monster :=
        { proto with id := sd.monster_id_to_spawn ++ ":" ++ toString instance_count }
      let s := s.setMonsters s.player.current_location (cur_monsters ++ [new_monster])
      { s with message := s.message ++ "\n" ++ sd.message }
    | none => s
  | none => s

/-- Per-defeated-monster handling (rpg.py lines 749-786): defeat message,
quest completion, loot drops, sequential spawning.  All reads and writes of
`player.current_location` target the live (possibly retreat-updated)
location, exactly as the source's attribute accesses do. -/
def processDefeatedMonster (s : GameState) (m : Monster) : GameState :=
  defeatSpawnStep
    (defeatDropsStep
      (defeatQuestStep
        { s with message := s.message ++ "\nYou have defeated the " ++ m.name ++ "!" } m) m) m

/-- Lines 746-789: `active_monsters` is the monster list object of the
location where combat was entered this tick; after the defeat loop the
survivors of that list (which received the spawn appends whenever the player
is still there) are written to the live current location. -/
def resolveDefeats (s : GameState) (combatLocId : String) : GameState :=
  let active := (s.getLoc combatLocId).monsters
  let defeated := active.filter (fun m => !m.is_alive)
  if defeated.isEmpty then s
  else
    let s' := defeated.foldl processDefeatedMonster s
    let activeNow :=
      if s'.player.current_location == combatLocId then (s'.getLoc combatLocId).monsters
      else active
    s'.setMonsters s'.player.current_location (activeNow.filter (fun m => m.is_alive))

/-- Lines 791-799: victory (mode back to explore, no enemy turn) or the
unconditional enemy turn of every remaining monster. -/
def victoryOrEnemy (s : GameState) : GameState :=
  if s.curLoc.monsters.isEmpty then
    { s with
      message := s.message ++ "\n\nVictory! You have defeated all enemies in the " ++
        s.curLoc.name ++ ".",
      game_mode := "explore" }
  else if s.game_mode == "combat" then
    let fold := s.curLoc.monsters.foldl enemyTurnStep (s.player.hp, "")
    { s with player := { s.player with hp := fold.1 }, message := s.message ++ fold.2 }
  else s

/-- Lines 802-809: volcanic burn, 3 damage unless "Fireproof Armor" is
carried or `fire_resistance` is active. -/
def burnStep (s : GameState) : GameState :=
  if s.curLoc.kind = LocKind.volcanic then
    let has_fire_armor := s.player.inventory.any (fun item => item.name == "Fireproof Armor")
    let has_fire_resistance := (dictLookup s.player.status_effects "fire_resistance").isSome
    if !has_fire_armor && !has_fire_resistance then
      { s with
        player := { s.player with hp := s.player.hp - 3 }
        message := s.message ++ "\nThe searing heat of the volcano burns you for 3 damage!" }
    else s
  else s

/-- Lines 811-820: status-effect decay: every duration is decremented and
entries that reach `<= 0` are removed and reported. -/
def decayStep (s : GameState) : GameState :=
  if s.player.status_effects.isEmpty then s
  else
    let dec := s.player.status_effects.map (fun p => (p.1, p.2 - 1))
    let removed := (dec.filter (fun p => p.2 ≤ 0)).map (fun p => p.1)
    let kept := dec.filter (fun p => 0 < p.2)
    { s with
      player := { s.player with status_effects := kept }
      message := removed.foldl
        (fun msg e => msg ++ "\nThe effect of " ++ pyReplaceUnderscores e ++ " has worn off.")
        s.message }

/-- Lines 801-820: the environmental phase of a consumed combat turn. -/
def environmental (s : GameState) : GameState :=
  decayStep (burnStep s)

/-- The explore→combat transition at the top of every loop iteration. -/
def applyTransition (s : GameState) : GameState :=
  if s.game_mode == "explore" && !s.curLoc.monsters.isEmpty then
    { s with
      game_mode := "combat"
      message := "You step into the " ++ s.curLoc.name ++ "... " ++
        String.intercalate " and a " (s.curLoc.monsters.map (fun m => m.name)) ++
        " block(s) your way!" }
  else s

/-- One full iteration of `main`'s game loop on a chosen command: the
explore→combat transition check, the message reset, the command dispatch of
the current mode, and (in combat, if a turn was consumed) defeat resolution,
victory or enemy turn, and the environmental/status phase.  The returned
flag is `player_turn_taken`. -/
def tick (s : GameState) (cmd : Cmd) (rolls : List Bool) (offTarget : Option Nat) :
    GameState × Bool :=
  let s0 := applyTransition s
  let s0 := { s0 with message := "" }
  match cmd with
  | .quit => (s0, false)
  | _ =>
    if s0.game_mode == "explore" then exploreStep s0 cmd
    else if s0.game_mode == "combat" then
      let combatLocId := s0.player.current_location
      let c := combatCmd s0 cmd rolls offTarget
      if c.2 then
        let s2 := victoryOrEnemy (resolveDefeats c.1 combatLocId)
        (if s2.player.hp > 0 then environmental s2 else s2, true)
      else c
    else (s0, false)

/-! ## Specification-side definitions and instrumentation

Definitions in this section are not translations of `rpg.py`; they express
the specification's wording (for refinement-style comparisons) or name
intermediate quantities of `tick` so that theorems can talk about them. -/

/-- Spec wording for one condition clause: `has_item` holds iff some inventory
item has the given id; `quest_completed` holds iff the quest exists and its
state is "completed"; unknown clause types are always-true. -/
def ClauseHolds (p : Player) : Cond → Prop
  | .has_item iid => ∃ item ∈ p.inventory, item.id = iid
  | .quest_completed qid => ∃ q, dictLookup p.quests qid = some q ∧ q.state = "completed"
  | .other _ => True

/-- Spec wording for the loot filter: a drop is skipped iff its id is in the
fixed unique-item set and an item with that id already exists in the player's
inventory or among the ground items at the moment the drop is processed. -/
def keptDropsSpec (inv : List Item) : List Item → List Item → List Item
  | _, [] => []
  | ground, d :: rest =>
    if uniqueItemIds.contains d.id &&
        (inv.any (fun i => i.id == d.id) || ground.any (fun i => i.id == d.id)) then
      keptDropsSpec inv ground rest
    else d :: keptDropsSpec inv (ground ++ [d]) rest

/-- A monster (as a value) present in some location of the world. -/
def MonsterIn (s : GameState) (m : Monster) : Prop :=
  ∃ lid loc, dictLookup s.locations lid = some loc ∧ m ∈ loc.monsters

/-- Total attack power of a monster list: the hp the enemy turn removes. -/
def enemyDamage : List Monster → Int
  | [] => 0
  | m :: rest => m.attack_power + enemyDamage rest

/-- Total parting-blow damage of a retreat given the roll stream
(monster `i` hits iff roll `i` is true). -/
def retreatDamageGo (rolls : List Bool) : List Monster → Nat → Int
  | [], _ => 0
  | m :: rest, i =>
    (if rolls.getD i false then (m.attack_power : Int) else 0) + retreatDamageGo rolls rest (i + 1)

def retreatDamage (ms : List Monster) (rolls : List Bool) : Int :=
  retreatDamageGo rolls ms 0

/-- The state after the transition check and message reset of a tick. -/
def preCmd (s : GameState) : GameState :=
  { applyTransition s with message := "" }

/-- The state after command dispatch and defeat resolution of a combat tick
(the input of the victory-or-enemy-turn phase). -/
def combatMid (s : GameState) (cmd : Cmd) (rolls : List Bool) (offTarget : Option Nat) :
    GameState :=
  resolveDefeats (combatCmd (preCmd s) cmd rolls offTarget).1 (preCmd s).player.current_location

/-- Cause: an enemy turn fired this tick and its total attack power is
positive. -/
def EnemyTurnCause (s : GameState) (cmd : Cmd) (rolls : List Bool) (offTarget : Option Nat) :
    Prop :=
  (applyTransition s).game_mode = "combat" ∧
  (combatCmd (preCmd s) cmd rolls offTarget).2 = true ∧
  (combatMid s cmd rolls offTarget).curLoc.monsters ≠ [] ∧
  (combatMid s cmd rolls offTarget).game_mode = "combat" ∧
  0 < enemyDamage (combatMid s cmd rolls offTarget).curLoc.monsters

/-- Cause: a retreat parting blow landed. -/
def RetreatCause (s : GameState) (cmd : Cmd) (rolls : List Bool) : Prop :=
  (applyTransition s).game_mode = "combat" ∧ cmd = Cmd.retreat ∧
  0 < retreatDamage (preCmd s).curLoc.monsters rolls

/-- Cause: the volcanic burn fired at the environmental phase of this tick. -/
def BurnCause (s : GameState) (cmd : Cmd) (rolls : List Bool) (offTarget : Option Nat) : Prop :=
  (applyTransition s).game_mode = "combat" ∧
  (combatCmd (preCmd s) cmd rolls offTarget).2 = true ∧
  (victoryOrEnemy (combatMid s cmd rolls offTarget)).curLoc.kind = LocKind.volcanic ∧
  ¬((victoryOrEnemy (combatMid s cmd rolls offTarget)).player.inventory.any
      (fun item => item.name == "Fireproof Armor") = true) ∧
  dictLookup (victoryOrEnemy (combatMid s cmd rolls offTarget)).player.status_effects
      "fire_resistance" = none

/-- Cause (absent from the claim as frozen): in explore mode, `use` applies an
OffensiveItem to the player, `item.use(player)` subtracting its damage from
the player's own hp. -/
def ExploreOffensiveCause (s : GameState) (cmd : Cmd) : Prop :=
  (applyTransition s).game_mode = "explore" ∧
  ∃ iid t, cmd = Cmd.use iid ∧
    splitAtFirst (fun i => i.id == iid) s.player.inventory = some t ∧
    ∃ a b c v dmg, t.2.1 = Item.offensive a b c v dmg ∧ 0 < dmg

/-- A monster hit by the player this tick: a resolved `attack` (the player's
attack power) or an offensive-item `use` (the item's damage) applied to a
monster that was present. -/
def DamagedByPlayer (s : GameState) (cmd : Cmd) (m' : Monster) : Prop :=
  (∃ mid m, cmd = Cmd.attack mid ∧ MonsterIn s m ∧
      m' = { m with hp := m.hp - (s.player.attack_power : Int) }) ∨
  (∃ iid t a b c v dmg m, cmd = Cmd.use iid ∧
      splitAtFirst (fun i => i.id == iid) s.player.inventory = some t ∧
      t.2.1 = Item.offensive a b c v dmg ∧ MonsterIn s m ∧
      m' = { m with hp := m.hp - (dmg : Int) })

/-- A freshly spawned monster: a copy of a prototype with an instance id. -/
def SpawnCopy (s : GameState) (m' : Monster) : Prop :=
  ∃ (pid : String) (proto : Monster) (n : Nat), dictLookup s.all_monsters pid = some proto ∧
    m' = { proto with id := pid ++ ":" ++ toString n }

/-- Sane world data for C4: an EffectPotion's duration is at least 1. -/
def EffectDurOk : Item → Prop
  | .effectPotion _ _ _ _ _ dur => 0 < dur
  | _ => True

/-- `{ s with player.max_hp := k }`, for the no-hp-clamping theorem. -/
def setMaxHp (s : GameState) (k : Int) : GameState :=
  { s with player := { s.player with max_hp := k } }

/-- The monster-placement fragment of `load_world_from_data` (lines 398-413):
each placed monster is a deep copy of its prototype with instance id
`prototypeId:index`, the index coming from a counter that is global across
locations. -/
def placeMonstersForLocations (all_monsters : Dict Monster)
    (monster_ids_by_loc : List (String × List String)) : List (String × List Monster) :=
  (monster_ids_by_loc.foldl
    (fun (acc : Dict Nat × List (String × List Monster)) locEntry =>
      let fold := locEntry.2.foldl
        (fun (acc2 : Dict Nat × List Monster) mid =>
          match dictLookup all_monsters mid with
          | some proto =>
            let c := (dictLookup acc2.1 mid).getD 0
            (dictInsert acc2.1 mid (c + 1),
             acc2.2 ++ [{ proto with id := mid ++ ":" ++ toString c }])
          | none => acc2)
        (acc.1, [])
      (fold.1, acc.2 ++ [(locEntry.1, fold.2)]))
    ([], [])).2

/-! ## Concrete scenario worlds -/

def plainLoc (lid nm : String) : Location :=
  { id := lid, name := nm, description := "An unremarkable place.", exits := [], npcs := [],
    monsters := [], items := [], conditional_exits := [], spawns_on_defeat := [],
    kind := LocKind.city, hazard_description := "", hidden_description := "" }

def mkPlayer (hp : Int) (ap : Nat) (inv : List Item) (lid : String) : Player :=
  { id := "player", name := "Hero", hp := hp, max_hp := hp, attack_power := ap,
    inventory := inv, current_location := lid, previous_location := lid,
    status_effects := [], quests := [], discovered_locations := [lid] }

/-- C1 counterexample state: explore mode, no monsters anywhere, an offensive
item in the inventory. -/
def c1State : GameState :=
  { player := mkPlayer 20 5 [Item.offensive "bomb_1" "Bomb" "A crude bomb." 0 1] "town",
    locations := [("town", plainLoc "town" "Town")], all_items := [], all_monsters := [],
    game_mode := "explore", message := "" }

/-- C2 state: an empty Container in the inventory. -/
def c2State : GameState :=
  { player := mkPlayer 20 5 [Item.container "box_1" "Box" "A small box." 0 []] "town",
    locations := [("town", plainLoc "town" "Town")], all_items := [], all_monsters := [],
    game_mode := "explore", message := "" }

/-- C2 witness state: a Container holding two items. -/
def c2FullState : GameState :=
  { player := mkPlayer 20 5
      [Item.container "chest_1" "Chest" "A wooden chest." 0
        [Item.base "apple_1" "Apple" "A red apple." 0,
         Item.base "bread_1" "Bread" "A loaf of bread." 0]] "town",
    locations := [("town", plainLoc "town" "Town")], all_items := [], all_monsters := [],
    game_mode := "explore", message := "" }

def c3ProtoP : Monster :=
  { id := "p", name := "Guard", monster_type := "humanoid", hp := 10, max_hp := 10,
    attack_power := 0, drops := [], completes_quest_id := none }

def c3ProtoQ : Monster :=
  { id := "q", name := "Imp", monster_type := "demon", hp := 3, max_hp := 3,
    attack_power := 1, drops := [], completes_quest_id := none }

def c3Protos : Dict Monster := [("p", c3ProtoP), ("q", c3ProtoQ)]

/-- Load-time placement for C3: one Guard in locA, then an Imp and a Guard in
locB; the global instance counter makes locB's Guard `p:1` (with no `p:0`
in that location). -/
def c3Placed : List (String × List Monster) :=
  placeMonstersForLocations c3Protos [("locA", ["p"]), ("locB", ["q", "p"])]

def c3LocA : Location :=
  { plainLoc "locA" "Gatehouse" with monsters := (dictLookup c3Placed "locA").getD [] }

def c3LocB : Location :=
  { plainLoc "locB" "Inner Yard" with
    monsters := (dictLookup c3Placed "locB").getD []
    spawns_on_defeat :=
      [("q", { monster_id_to_spawn := "p", message := "Another guard marches in!" })] }

def c3State : GameState :=
  { player := mkPlayer 20 5 [] "locB",
    locations := [("locA", c3LocA), ("locB", c3LocB)], all_items := [],
    all_monsters := c3Protos, game_mode := "combat", message := "" }

def c4Beast : Monster :=
  { id := "big:0", name := "Basalt Beast", monster_type := "elemental", hp := 100, max_hp := 100,
    attack_power := 2, drops := [], completes_quest_id := none }

def c4Volcano : Location :=
  { plainLoc "vol" "Smoldering Caldera" with monsters := [c4Beast], kind := LocKind.volcanic }

def c4State : GameState :=
  { player := mkPlayer 30 5
      [Item.effectPotion "fp_1" "Fire Potion" "Grants fire resistance." 0 "fire_resistance" 1]
      "vol",
    locations := [("vol", c4Volcano)], all_items := [], all_monsters := [],
    game_mode := "combat", message := "" }

def c4Tick1 : GameState := (tick c4State (Cmd.use "fp_1") [] none).1

def c4Tick2 : GameState := (tick c4Tick1 (Cmd.attack "big:0") [] none).1

def c6Orc : Monster :=
  { id := "orc:0", name := "Orc", monster_type := "orc", hp := 12, max_hp := 12,
    attack_power := 1, drops := [], completes_quest_id := none }

def c6Pit : Location := { plainLoc "pit" "The Pit" with monsters := [c6Orc] }

def c6State : GameState :=
  { player := mkPlayer 20 5 [] "pit",
    locations := [("pit", c6Pit)], all_items := [], all_monsters := [],
    game_mode := "combat", message := "" }

def c6T1 : GameState := (tick c6State (Cmd.attack "orc:0") [] none).1

def c6T2 : GameState := (tick c6T1 (Cmd.attack "orc:0") [] none).1

def c6T3 : GameState := (tick c6T2 (Cmd.attack "orc:0") [] none).1

def c7Wolf : Monster :=
  { id := "wolf:0", name := "Wolf", monster_type := "beast", hp := 5, max_hp := 5,
    attack_power := 4, drops := [], completes_quest_id := none }

def c7Bear : Monster :=
  { id := "bear:0", name := "Bear", monster_type := "beast", hp := 7, max_hp := 7,
    attack_power := 6, drops := [], completes_quest_id := none }

def c7Den : Location := { plainLoc "den" "Dark Den" with monsters := [c7Wolf, c7Bear] }

def c7State : GameState :=
  { player := { mkPlayer 30 5 [] "den" with previous_location := "camp" },
    locations := [("den", c7Den), ("camp", plainLoc "camp" "Camp")], all_items := [],
    all_monsters := [], game_mode := "combat", message := "" }

/-- C10 state: full health and a healing potion. -/
def c10State : GameState :=
  { player := mkPlayer 20 5 [Item.potion "hp_1" "Healing Draught" "Restores health." 0 5] "town",
    locations := [("town", plainLoc "town" "Town")], all_items := [], all_monsters := [],
    game_mode := "explore", message := "" }

/-! ## Helper lemmas -/

theorem dictLookup_dictInsert (l : Dict α) (k k' : String) (v : α) :
    dictLookup (dictInsert l k v) k' = if k = k' then some v else dictLookup l k' := by
  induction l with
  | nil => simp [dictInsert, dictLookup]
  | cons p rest ih =>
    by_cases h1 : p.1 = k
    · simp only [dictInsert, h1, if_true, dictLookup]
      by_cases h2 : k = k' <;> simp [dictLookup, h1, h2]
    · simp only [dictInsert, h1, if_false, dictLookup]
      by_cases h2 : p.1 = k'
      · have : ¬ k = k' := fun h => h1 (h ▸ h2)
        simp [dictLookup, h2, this]
      · simp [dictLookup, h2, ih]

theorem mem_dictInsert (l : Dict α) (k : String) (v : α) (p : String × α) :
    p ∈ dictInsert l k v → p = (k, v) ∨ p ∈ l := by
  induction l with
  | nil => simp [dictInsert]
  | cons q rest ih =>
    by_cases h1 : q.1 = k
    · simp only [dictInsert, h1, if_true]
      intro h
      rcases List.mem_cons.mp h with h | h
      · exact Or.inl h
      · exact Or.inr (List.mem_cons_of_mem _ h)
    · simp only [dictInsert, h1, if_false]
      intro h
      rcases List.mem_cons.mp h with h | h
      · exact Or.inr (h ▸ List.mem_cons_self _ _)
      · rcases ih h with h' | h'
        · exact Or.inl h'
        · exact Or.inr (List.mem_cons_of_mem _ h')

theorem splitAtFirst_eq (pred : α → Bool) (l : List α) (t : List α × α × List α)
    (h : splitAtFirst pred l = some t) : l = t.1 ++ t.2.1 :: t.2.2 := by
  induction l generalizing t with
  | nil => simp [splitAtFirst] at h
  | cons a rest ih =>
    by_cases hp : pred a
    · rw [splitAtFirst, if_pos hp] at h
      cases h
      simp
    · rw [splitAtFirst, if_neg hp] at h
      cases hs : splitAtFirst pred rest with
      | none => rw [hs] at h; simp at h
      | some t' =>
        rw [hs] at h
        simp only [Option.map_some', Option.some.injEq] at h
        subst h
        simpa using ih t' hs

theorem splitAtFirst_mem (pred : α → Bool) (l : List α) (t : List α × α × List α)
    (h : splitAtFirst pred l = some t) : t.2.1 ∈ l := by
  rw [splitAtFirst_eq pred l t h]
  exact List.mem_append_right _ (List.mem_cons_self _ _)

theorem applyTransition_player (s : GameState) : (applyTransition s).player = s.player := by
  unfold applyTransition; split <;> rfl

theorem applyTransition_locations (s : GameState) :
    (applyTransition s).locations = s.locations := by
  unfold applyTransition; split <;> rfl

theorem applyTransition_all_monsters (s : GameState) :
    (applyTransition s).all_monsters = s.all_monsters := by
  unfold applyTransition; split <;> rfl

theorem preCmd_player (s : GameState) : (preCmd s).player = s.player := by
  unfold preCmd; rw [show ({ applyTransition s with message := "" } : GameState).player =
    (applyTransition s).player from rfl, applyTransition_player]

theorem preCmd_locations (s : GameState) : (preCmd s).locations = s.locations := by
  unfold preCmd; rw [show ({ applyTransition s with message := "" } : GameState).locations =
    (applyTransition s).locations from rfl, applyTransition_locations]

theorem preCmd_all_monsters (s : GameState) : (preCmd s).all_monsters = s.all_monsters := by
  unfold preCmd; rw [show ({ applyTransition s with message := "" } : GameState).all_monsters =
    (applyTransition s).all_monsters from rfl, applyTransition_all_monsters]

theorem preCmd_getLoc (s : GameState) (lid : String) : (preCmd s).getLoc lid = s.getLoc lid := by
  unfold GameState.getLoc
  rw [preCmd_locations]

theorem preCmd_curLoc (s : GameState) : (preCmd s).curLoc = s.curLoc := by
  unfold GameState.curLoc
  rw [preCmd_getLoc, preCmd_player]

/-- `Player.move` only rewrites the location and discovery fields. -/
theorem move_eq (p : Player) (w : Dict Location) (d : String) :
    ∃ cur prev disc, (Player.move p w d).1 =
      { p with current_location := cur, previous_location := prev,
               discovered_locations := disc } := by
  unfold Player.move Player.discover
  repeat' split
  all_goals exact ⟨_, _, _, rfl⟩

theorem mem_getLoc_monsters (s : GameState) (lid : String) (m : Monster)
    (h : m ∈ (s.getLoc lid).monsters) : MonsterIn s m := by
  unfold GameState.getLoc at h
  cases hl : dictLookup s.locations lid with
  | none => rw [hl] at h; simp [emptyLocation] at h
  | some loc => rw [hl] at h; exact ⟨lid, loc, hl, h⟩

theorem MonsterIn_setLoc (s : GameState) (lid : String) (loc : Location) (m : Monster)
    (h : MonsterIn (s.setLoc lid loc) m) : m ∈ loc.monsters ∨ MonsterIn s m := by
  obtain ⟨lid', loc', hl, hm⟩ := h
  simp only [GameState.setLoc] at hl
  rw [dictLookup_dictInsert] at hl
  by_cases he : lid = lid'
  · rw [if_pos he] at hl
    cases hl
    exact Or.inl hm
  · rw [if_neg he] at hl
    exact Or.inr ⟨lid', loc', hl, hm⟩

theorem MonsterIn_setItems (s : GameState) (lid : String) (its : List Item) (m : Monster)
    (h : MonsterIn (s.setItems lid its) m) : MonsterIn s m := by
  rcases MonsterIn_setLoc _ _ _ _ h with h' | h'
  · exact mem_getLoc_monsters s lid m h'
  · exact h'

theorem MonsterIn_setNpcs (s : GameState) (lid : String) (ns : List NPC) (m : Monster)
    (h : MonsterIn (s.setNpcs lid ns) m) : MonsterIn s m := by
  rcases MonsterIn_setLoc _ _ _ _ h with h' | h'
  · exact mem_getLoc_monsters s lid m h'
  · exact h'

theorem MonsterIn_setMonsters (s : GameState) (lid : String) (ms : List Monster) (m : Monster)
    (h : MonsterIn (s.setMonsters lid ms) m) : m ∈ ms ∨ MonsterIn s m := by
  rcases MonsterIn_setLoc _ _ _ _ h with h' | h'
  · exact Or.inl h'
  · exact Or.inr h'

theorem MonsterIn_congr (s s' : GameState) (h : s.locations = s'.locations) (m : Monster) :
    MonsterIn s m ↔ MonsterIn s' m := by
  unfold MonsterIn
  rw [h]

/-- The player fields (and mode and tables) a defeat sub-step leaves alone. -/
def DefeatFrame (s s' : GameState) : Prop :=
  s'.player.hp = s.player.hp ∧
  s'.player.status_effects = s.player.status_effects ∧
  s'.player.inventory = s.player.inventory ∧
  s'.player.current_location = s.player.current_location ∧
  s'.player.attack_power = s.player.attack_power ∧
  s'.player.max_hp = s.player.max_hp ∧
  s'.game_mode = s.game_mode ∧
  s'.all_monsters = s.all_monsters

theorem DefeatFrame.trans {s1 s2 s3 : GameState} (h1 : DefeatFrame s1 s2)
    (h2 : DefeatFrame s2 s3) : DefeatFrame s1 s3 := by
  obtain ⟨a1, b1, c1, d1, e1, f1, g1, i1⟩ := h1
  obtain ⟨a2, b2, c2, d2, e2, f2, g2, i2⟩ := h2
  exact ⟨a2.trans a1, b2.trans b1, c2.trans c1, d2.trans d1, e2.trans e1, f2.trans f1,
    g2.trans g1, i2.trans i1⟩

theorem defeatQuestStep_frame (s : GameState) (m : Monster) :
    DefeatFrame s (defeatQuestStep s m) := by
  unfold defeatQuestStep
  dsimp only
  repeat' split
  all_goals exact ⟨rfl, rfl, rfl, rfl, rfl, rfl, rfl, rfl⟩

theorem defeatDropsStep_frame (s : GameState) (m : Monster) :
    DefeatFrame s (defeatDropsStep s m) := by
  unfold defeatDropsStep
  dsimp only
  repeat' split
  all_goals exact ⟨rfl, rfl, rfl, rfl, rfl, rfl, rfl, rfl⟩

theorem defeatSpawnStep_frame (s : GameState) (m : Monster) :
    DefeatFrame s (defeatSpawnStep s m) := by
  unfold defeatSpawnStep
  dsimp only
  repeat' split
  all_goals exact ⟨rfl, rfl, rfl, rfl, rfl, rfl, rfl, rfl⟩

theorem processDefeated_frame (s : GameState) (m : Monster) :
    DefeatFrame s (processDefeatedMonster s m) := by
  unfold processDefeatedMonster
  have h0 : DefeatFrame s
      { s with message := s.message ++ "\nYou have defeated the " ++ m.name ++ "!" } :=
    ⟨rfl, rfl, rfl, rfl, rfl, rfl, rfl, rfl⟩
  exact (h0.trans (defeatQuestStep_frame _ m) |>.trans (defeatDropsStep_frame _ m)).trans
    (defeatSpawnStep_frame _ m)

theorem foldl_processDefeated_frame (l : List Monster) (s : GameState) :
    DefeatFrame s (l.foldl processDefeatedMonster s) := by
  induction l generalizing s with
  | nil => exact ⟨rfl, rfl, rfl, rfl, rfl, rfl, rfl, rfl⟩
  | cons m rest ih =>
    exact (processDefeated_frame s m).trans (ih (processDefeatedMonster s m))

theorem resolveDefeats_frame (s : GameState) (lid : String) :
    DefeatFrame s (resolveDefeats s lid) := by
  unfold resolveDefeats
  dsimp only
  split
  · exact ⟨rfl, rfl, rfl, rfl, rfl, rfl, rfl, rfl⟩
  · refine DefeatFrame.trans
      (foldl_processDefeated_frame ((s.getLoc lid).monsters.filter (fun m => !m.is_alive)) s) ?_
    exact ⟨rfl, rfl, rfl, rfl, rfl, rfl, rfl, rfl⟩

theorem MonsterIn_defeatQuestStep (s : GameState) (m : Monster) (m' : Monster)
    (h : MonsterIn (defeatQuestStep s m) m') : MonsterIn s m' := by
  unfold defeatQuestStep at h
  split at h
  · split at h
    · split at h
      · exact h
      · exact (MonsterIn_congr _ s rfl m').mp h
    · exact h
  · exact h

theorem MonsterIn_defeatDropsStep (s : GameState) (m : Monster) (m' : Monster)
    (h : MonsterIn (defeatDropsStep s m) m') : MonsterIn s m' := by
  unfold defeatDropsStep at h
  split at h
  · exact h
  · dsimp only at h
    split at h
    · exact MonsterIn_setItems _ _ _ _ h
    · have h2 : MonsterIn (GameState.setItems s s.player.current_location
          (processDrops m.drops s.player.inventory
            (s.getLoc s.player.current_location).items).1) m' :=
        (MonsterIn_congr _ _ rfl m').mp h
      exact MonsterIn_setItems _ _ _ _ h2

theorem MonsterIn_defeatSpawnStep (s : GameState) (m : Monster) (m' : Monster)
    (h : MonsterIn (defeatSpawnStep s m) m') : MonsterIn s m' ∨ SpawnCopy s m' := by
  unfold defeatSpawnStep at h
  dsimp only at h
  split at h
  · rename_i sd hsd
    split at h
    · rename_i proto hproto
      rcases MonsterIn_setMonsters s s.player.current_location _ m' h with h3 | h3
      · rcases List.mem_append.mp h3 with h4 | h4
        · exact Or.inl (mem_getLoc_monsters _ _ _ h4)
        · rcases List.mem_singleton.mp h4 with rfl
          exact Or.inr ⟨sd.monster_id_to_spawn, proto, _, hproto, rfl⟩
      · exact Or.inl h3
    · exact Or.inl h
  · exact Or.inl h

theorem SpawnCopy_congr (s s' : GameState) (h : s.all_monsters = s'.all_monsters)
    (m' : Monster) : SpawnCopy s m' → SpawnCopy s' m' := by
  unfold SpawnCopy
  rw [h]
  exact id

theorem MonsterIn_processDefeated (s : GameState) (m : Monster) (m' : Monster)
    (h : MonsterIn (processDefeatedMonster s m) m') : MonsterIn s m' ∨ SpawnCopy s m' := by
  unfold processDefeatedMonster at h
  rcases MonsterIn_defeatSpawnStep _ _ _ h with h1 | h1
  · have h2 := MonsterIn_defeatDropsStep _ _ _ h1
    have h3 := MonsterIn_defeatQuestStep _ _ _ h2
    exact Or.inl ((MonsterIn_congr _ s rfl m').mp h3)
  · refine Or.inr (SpawnCopy_congr _ s ?_ _ h1)
    have hq := defeatQuestStep_frame
      { s with message := s.message ++ "\nYou have defeated the " ++ m.name ++ "!" } m
    have hd := defeatDropsStep_frame
      (defeatQuestStep
        { s with message := s.message ++ "\nYou have defeated the " ++ m.name ++ "!" } m) m
    exact (hd.2.2.2.2.2.2.2).trans (hq.2.2.2.2.2.2.2)

theorem MonsterIn_foldl_processDefeated (l : List Monster) (s : GameState) (m' : Monster)
    (h : MonsterIn (l.foldl processDefeatedMonster s) m') : MonsterIn s m' ∨ SpawnCopy s m' := by
  induction l generalizing s with
  | nil => exact Or.inl h
  | cons m rest ih =>
    rcases ih (processDefeatedMonster s m) h with h1 | h1
    · exact MonsterIn_processDefeated s m m' h1
    · exact Or.inr
        (SpawnCopy_congr (processDefeatedMonster s m) s
          (processDefeated_frame s m).2.2.2.2.2.2.2 m' h1)

theorem victoryOrEnemy_frame (s : GameState) :
    (victoryOrEnemy s).player.status_effects = s.player.status_effects ∧
    (victoryOrEnemy s).player.inventory = s.player.inventory ∧
    (victoryOrEnemy s).player.current_location = s.player.current_location ∧
    (victoryOrEnemy s).player.attack_power = s.player.attack_power ∧
    (victoryOrEnemy s).player.max_hp = s.player.max_hp ∧
    (victoryOrEnemy s).locations = s.locations ∧
    (victoryOrEnemy s).all_monsters = s.all_monsters := by
  unfold victoryOrEnemy
  dsimp only
  repeat' split
  all_goals exact ⟨rfl, rfl, rfl, rfl, rfl, rfl, rfl⟩

theorem burnStep_frame (s : GameState) :
    (burnStep s).player.status_effects = s.player.status_effects ∧
    (burnStep s).player.inventory = s.player.inventory ∧
    (burnStep s).player.current_location = s.player.current_location ∧
    (burnStep s).player.max_hp = s.player.max_hp ∧
    (burnStep s).locations = s.locations ∧
    (burnStep s).game_mode = s.game_mode := by
  unfold burnStep
  dsimp only
  repeat' split
  all_goals exact ⟨rfl, rfl, rfl, rfl, rfl, rfl⟩

theorem decayStep_frame (s : GameState) :
    (decayStep s).player.hp = s.player.hp ∧
    (decayStep s).player.inventory = s.player.inventory ∧
    (decayStep s).player.current_location = s.player.current_location ∧
    (decayStep s).player.max_hp = s.player.max_hp ∧
    (decayStep s).locations = s.locations ∧
    (decayStep s).game_mode = s.game_mode := by
  unfold decayStep
  dsimp only
  repeat' split
  all_goals exact ⟨rfl, rfl, rfl, rfl, rfl, rfl⟩

/-- After the decay phase, every remaining status effect has a positive
remaining duration. -/
theorem decayStep_status_pos (s : GameState) :
    ∀ p ∈ (decayStep s).player.status_effects, 0 < p.2 := by
  intro p hp
  unfold decayStep at hp
  split at hp
  · rename_i h
    rw [List.isEmpty_iff] at h
    rw [h] at hp
    simp at hp
  · have hp' : p ∈ (s.player.status_effects.map (fun p => (p.1, p.2 - 1))).filter
        (fun p => decide (0 < p.2)) := hp
    exact of_decide_eq_true (List.mem_filter.mp hp').2

/-- In explore mode the player's hp and status effects change only through
`use`: a Potion adds its heal amount, an EffectPotion inserts its effect, an
OffensiveItem subtracts its damage from the player themself. -/
theorem exploreStep_player (s : GameState) (cmd : Cmd) :
    ((exploreStep s cmd).1.player.hp = s.player.hp ∧
     (exploreStep s cmd).1.player.status_effects = s.player.status_effects) ∨
    (∃ iid t, cmd = Cmd.use iid ∧
      splitAtFirst (fun i => i.id == iid) s.player.inventory = some t ∧
      ((∃ a b c v heal, t.2.1 = Item.potion a b c v heal ∧
          (exploreStep s cmd).1.player.hp = s.player.hp + heal ∧
          (exploreStep s cmd).1.player.status_effects = s.player.status_effects) ∨
       (∃ a b c v eff dur, t.2.1 = Item.effectPotion a b c v eff dur ∧
          (exploreStep s cmd).1.player.hp = s.player.hp ∧
          (exploreStep s cmd).1.player.status_effects =
            dictInsert s.player.status_effects eff dur) ∨
       (∃ a b c v dmg, t.2.1 = Item.offensive a b c v dmg ∧
          (exploreStep s cmd).1.player.hp = s.player.hp - dmg ∧
          (exploreStep s cmd).1.player.status_effects = s.player.status_effects))) := by
  cases cmd with
  | look => exact Or.inl ⟨rfl, rfl⟩
  | map => exact Or.inl ⟨rfl, rfl⟩
  | inventory => exact Or.inl ⟨rfl, rfl⟩
  | attack mid => exact Or.inl ⟨rfl, rfl⟩
  | retreat => exact Or.inl ⟨rfl, rfl⟩
  | quit => exact Or.inl ⟨rfl, rfl⟩
  | go dir =>
    left
    obtain ⟨cur, prev, disc, hm⟩ := move_eq s.player s.locations dir
    unfold exploreStep
    dsimp only
    rw [hm]
    exact ⟨rfl, rfl⟩
  | get iid =>
    left
    unfold exploreStep
    dsimp only
    split
    · exact ⟨rfl, rfl⟩
    · exact ⟨rfl, rfl⟩
  | talk nid =>
    left
    unfold exploreStep
    dsimp only
    split
    · exact ⟨rfl, rfl⟩
    · split <;> exact ⟨rfl, rfl⟩
  | use iid =>
    unfold exploreStep
    dsimp only
    split
    · exact Or.inl ⟨rfl, rfl⟩
    · rename_i t hsp
      split
      · rename_i a b c v heal heq
        exact Or.inr ⟨iid, t, rfl, hsp, Or.inl ⟨a, b, c, v, heal, heq, rfl, rfl⟩⟩
      · rename_i a b c v eff dur heq
        exact Or.inr ⟨iid, t, rfl, hsp, Or.inr (Or.inl ⟨a, b, c, v, eff, dur, heq, rfl, rfl⟩)⟩
      · rename_i a b c v dmg heq
        exact Or.inr ⟨iid, t, rfl, hsp, Or.inr (Or.inr ⟨a, b, c, v, dmg, heq, rfl, rfl⟩)⟩
      · exact Or.inl ⟨rfl, rfl⟩
      · exact Or.inl ⟨rfl, rfl⟩

/-- Explore-mode commands never touch any location's monster list. -/
theorem MonsterIn_exploreStep (s : GameState) (cmd : Cmd) (m' : Monster)
    (h : MonsterIn (exploreStep s cmd).1 m') : MonsterIn s m' := by
  cases cmd with
  | look => exact h
  | map => exact h
  | inventory => exact h
  | attack mid => exact h
  | retreat => exact h
  | quit => exact h
  | go dir => exact h
  | get iid =>
    unfold exploreStep at h
    dsimp only at h
    split at h
    · exact MonsterIn_setItems _ _ _ _ h
    · exact h
  | talk nid =>
    unfold exploreStep at h
    dsimp only at h
    split at h
    · exact h
    · exact MonsterIn_setNpcs _ _ _ _ h
  | use iid =>
    unfold exploreStep at h
    dsimp only at h
    split at h
    · exact h
    · split at h <;> exact h

theorem retreatDamageGo_cons (rolls : List Bool) (m : Monster) (rest : List Monster) (i : Nat) :
    retreatDamageGo rolls (m :: rest) i =
      (if rolls.getD i false then (m.attack_power : Int) else 0) +
        retreatDamageGo rolls rest (i + 1) := rfl

theorem enemyDamage_cons (m : Monster) (rest : List Monster) :
    enemyDamage (m :: rest) = m.attack_power + enemyDamage rest := rfl

/-- The retreat fold subtracts exactly the parting-blow damage of the rolls
that hit. -/
theorem retreat_foldl_hp (rolls : List Bool) (ms : List Monster) :
    ∀ (i : Nat) (hp0 : Int) (msg0 : String),
      (ms.foldl (retreatStep rolls) (i, hp0, msg0)).2.1 = hp0 - retreatDamageGo rolls ms i := by
  induction ms with
  | nil =>
    intro i hp0 msg0
    simp [retreatDamageGo]
  | cons m rest ih =>
    intro i hp0 msg0
    rw [List.foldl_cons]
    by_cases hr : rolls.getD i false
    · have hstep : retreatStep rolls (i, hp0, msg0) m =
          (i + 1, hp0 - m.attack_power,
           msg0 ++ "\nThe " ++ m.name ++ " strikes you for " ++ toString m.attack_power ++
             " damage as you escape!") := by
        unfold retreatStep
        dsimp only
        rw [if_pos hr]
      rw [hstep, ih, retreatDamageGo_cons, if_pos hr]
      ring
    · have hstep : retreatStep rolls (i, hp0, msg0) m =
          (i + 1, hp0, msg0 ++ "\nThe " ++ m.name ++ " swipes at you but misses!") := by
        unfold retreatStep
        dsimp only
        rw [if_neg hr]
      rw [hstep, ih, retreatDamageGo_cons, if_neg hr]
      ring

/-- The enemy-turn fold subtracts exactly the total attack power. -/
theorem enemy_foldl_hp (ms : List Monster) :
    ∀ (hp0 : Int) (msg0 : String),
      (ms.foldl enemyTurnStep (hp0, msg0)).1 = hp0 - enemyDamage ms := by
  induction ms with
  | nil =>
    intro hp0 msg0
    simp [enemyDamage]
  | cons m rest ih =>
    intro hp0 msg0
    rw [List.foldl_cons]
    have hstep : enemyTurnStep (hp0, msg0) m =
        (hp0 - m.attack_power,
         msg0 ++ "\nThe " ++ m.name ++ " attacks you, dealing " ++ toString m.attack_power ++
           " damage.") := rfl
    rw [hstep, ih, enemyDamage_cons]
    ring

/-- The enemy-turn fold never touches anything but hp and message; in
particular the victory-or-enemy phase either keeps the player's hp (victory,
or not in combat mode) or subtracts the total attack power of the remaining
monsters. -/
theorem victoryOrEnemy_hp (s : GameState) :
    ((victoryOrEnemy s).player.hp = s.player.hp ∧
     ((victoryOrEnemy s).game_mode = "explore" ∨ s.game_mode ≠ "combat")) ∨
    (s.curLoc.monsters ≠ [] ∧ s.game_mode = "combat" ∧
     (victoryOrEnemy s).player.hp = s.player.hp - enemyDamage s.curLoc.monsters) := by
  unfold victoryOrEnemy
  dsimp only
  split
  · exact Or.inl ⟨rfl, Or.inl rfl⟩
  · rename_i hne
    split
    · rename_i hmode
      right
      refine ⟨by simpa using hne, by simpa using hmode, ?_⟩
      exact enemy_foldl_hp s.curLoc.monsters s.player.hp ""
    · rename_i hmode
      exact Or.inl ⟨rfl, Or.inr (by simpa using hmode)⟩

/-- The burn phase: hp unchanged, or the volcanic conditions hold and hp
drops by exactly 3. -/
theorem burnStep_hp (s : GameState) :
    (burnStep s).player.hp = s.player.hp ∨
    (s.curLoc.kind = LocKind.volcanic ∧
     s.player.inventory.any (fun item => item.name == "Fireproof Armor") = false ∧
     dictLookup s.player.status_effects "fire_resistance" = none ∧
     (burnStep s).player.hp = s.player.hp - 3) := by
  unfold burnStep
  dsimp only
  split
  · rename_i hvol
    split
    · rename_i hcond
      right
      rw [Bool.and_eq_true, Bool.not_eq_true', Bool.not_eq_true'] at hcond
      refine ⟨hvol, hcond.1, ?_, rfl⟩
      rcases hl : dictLookup s.player.status_effects "fire_resistance" with _ | v
      · rfl
      · rw [hl] at hcond
        simp at hcond
    · exact Or.inl rfl
  · exact Or.inl rfl

/-- In combat the player's hp and status effects change only through a
Potion/EffectPotion `use` or the retreat parting blows. -/
theorem combatCmd_player (s : GameState) (cmd : Cmd) (rolls : List Bool) (ot : Option Nat) :
    ((combatCmd s cmd rolls ot).1.player.hp = s.player.hp ∧
     (combatCmd s cmd rolls ot).1.player.status_effects = s.player.status_effects) ∨
    (∃ iid t, cmd = Cmd.use iid ∧
      splitAtFirst (fun i => i.id == iid) s.player.inventory = some t ∧
      ((∃ a b c v heal, t.2.1 = Item.potion a b c v heal ∧
          (combatCmd s cmd rolls ot).1.player.hp = s.player.hp + heal ∧
          (combatCmd s cmd rolls ot).1.player.status_effects = s.player.status_effects) ∨
       (∃ a b c v eff dur, t.2.1 = Item.effectPotion a b c v eff dur ∧
          (combatCmd s cmd rolls ot).1.player.hp = s.player.hp ∧
          (combatCmd s cmd rolls ot).1.player.status_effects =
            dictInsert s.player.status_effects eff dur))) ∨
    (cmd = Cmd.retreat ∧
      (combatCmd s cmd rolls ot).1.player.hp =
        s.player.hp - retreatDamage s.curLoc.monsters rolls ∧
      (combatCmd s cmd rolls ot).1.player.status_effects = s.player.status_effects) := by
  cases cmd with
  | look => exact Or.inl ⟨rfl, rfl⟩
  | map => exact Or.inl ⟨rfl, rfl⟩
  | go dir => exact Or.inl ⟨rfl, rfl⟩
  | get iid => exact Or.inl ⟨rfl, rfl⟩
  | inventory => exact Or.inl ⟨rfl, rfl⟩
  | talk nid => exact Or.inl ⟨rfl, rfl⟩
  | quit => exact Or.inl ⟨rfl, rfl⟩
  | attack mid =>
    unfold combatCmd
    dsimp only
    split
    · exact Or.inl ⟨rfl, rfl⟩
    · exact Or.inl ⟨rfl, rfl⟩
  | use iid =>
    unfold combatCmd
    dsimp only
    split
    · exact Or.inl ⟨rfl, rfl⟩
    · rename_i t hsp
      split
      · split
        · exact Or.inl ⟨rfl, rfl⟩
        · exact Or.inl ⟨rfl, rfl⟩
      · rename_i a b c v heal heq
        exact Or.inr (Or.inl ⟨iid, t, rfl, hsp, Or.inl ⟨a, b, c, v, heal, heq, rfl, rfl⟩⟩)
      · rename_i a b c v eff dur heq
        exact Or.inr (Or.inl ⟨iid, t, rfl, hsp, Or.inr ⟨a, b, c, v, eff, dur, heq, rfl, rfl⟩⟩)
      · exact Or.inl ⟨rfl, rfl⟩
  | retreat =>
    right; right
    refine ⟨rfl, ?_, ?_⟩
    · unfold combatCmd
      dsimp only
      split
      · exact retreat_foldl_hp rolls s.curLoc.monsters 0 s.player.hp "You flee from combat!"
      · exact retreat_foldl_hp rolls s.curLoc.monsters 0 s.player.hp "You flee from combat!"
    · unfold combatCmd
      dsimp only
      split
      · rfl
      · rfl

/-- In combat the game mode is unchanged except that retreat sets it back to
explore. -/
theorem combatCmd_mode (s : GameState) (cmd : Cmd) (rolls : List Bool) (ot : Option Nat) :
    (combatCmd s cmd rolls ot).1.game_mode = s.game_mode ∨
    (cmd = Cmd.retreat ∧ (combatCmd s cmd rolls ot).1.game_mode = "explore") := by
  cases cmd with
  | look => exact Or.inl rfl
  | map => exact Or.inl rfl
  | go dir => exact Or.inl rfl
  | get iid => exact Or.inl rfl
  | inventory => exact Or.inl rfl
  | talk nid => exact Or.inl rfl
  | quit => exact Or.inl rfl
  | attack mid =>
    unfold combatCmd
    dsimp only
    split
    · exact Or.inl rfl
    · exact Or.inl rfl
  | use iid =>
    unfold combatCmd
    dsimp only
    split
    · exact Or.inl rfl
    · split
      · split
        · exact Or.inl rfl
        · exact Or.inl rfl
      · exact Or.inl rfl
      · exact Or.inl rfl
      · exact Or.inl rfl
  | retreat =>
    refine Or.inr ⟨rfl, ?_⟩
    unfold combatCmd
    dsimp only
    split
    · rfl
    · rfl

/-- In combat a monster changes only by taking a resolved attack or an
offensive-item hit. -/
theorem MonsterIn_combatCmd (s : GameState) (cmd : Cmd) (rolls : List Bool) (ot : Option Nat)
    (m' : Monster) (h : MonsterIn (combatCmd s cmd rolls ot).1 m') :
    MonsterIn s m' ∨ DamagedByPlayer s cmd m' := by
  cases cmd with
  | look => exact Or.inl h
  | map => exact Or.inl h
  | go dir => exact Or.inl h
  | get iid => exact Or.inl h
  | inventory => exact Or.inl h
  | talk nid => exact Or.inl h
  | quit => exact Or.inl h
  | retreat =>
    unfold combatCmd at h
    dsimp only at h
    split at h
    · exact Or.inl h
    · exact Or.inl h
  | attack mid =>
    unfold combatCmd at h
    dsimp only at h
    split at h
    · exact Or.inl h
    · rename_i t hsp
      unfold GameState.curLoc at hsp
      rcases MonsterIn_setMonsters s s.player.current_location _ m' h with h3 | h3
      · rcases List.mem_append.mp h3 with h4 | h5
        · rcases List.mem_append.mp h4 with h6 | h6
          · refine Or.inl (mem_getLoc_monsters s s.player.current_location m' ?_)
            rw [splitAtFirst_eq _ _ _ hsp]
            exact List.mem_append_left _ h6
          · rcases List.mem_singleton.mp h6 with rfl
            refine Or.inr (Or.inl ⟨mid, t.2.1, rfl, ?_, rfl⟩)
            exact mem_getLoc_monsters s s.player.current_location t.2.1
              (splitAtFirst_mem _ _ _ hsp)
        · refine Or.inl (mem_getLoc_monsters s s.player.current_location m' ?_)
          rw [splitAtFirst_eq _ _ _ hsp]
          exact List.mem_append_right _ (List.mem_cons_of_mem _ h5)
      · exact Or.inl h3
  | use iid =>
    unfold combatCmd at h
    dsimp only at h
    split at h
    · exact Or.inl h
    · rename_i t hsp
      split at h
      · rename_i a b c v dmg heq
        split at h
        · rename_i jm hjm
          rcases MonsterIn_setMonsters s s.player.current_location _ m' h with h3 | h3
          · rcases List.mem_or_eq_of_mem_set h3 with h4 | h4
            · exact Or.inl (mem_getLoc_monsters s s.player.current_location m' h4)
            · simp only [Option.bind_eq_some, Option.map_eq_some'] at hjm
              obtain ⟨j, hj, target, htj, hpair⟩ := hjm
              refine Or.inr (Or.inr ⟨iid, t, a, b, c, v, dmg, jm.2, rfl, hsp, heq, ?_, ?_⟩)
              · refine mem_getLoc_monsters s s.player.current_location jm.2 ?_
                have hmem : target ∈ s.curLoc.monsters := List.getElem?_mem htj
                have h2 : jm.2 = target := by rw [← hpair]
                rw [h2]
                exact hmem
              · rw [h4]
                rfl
          · exact Or.inl h3
        · exact Or.inl h
      · exact Or.inl h
      · exact Or.inl h
      · exact Or.inl h

theorem tick_quit (s : GameState) (rolls : List Bool) (ot : Option Nat) :
    tick s Cmd.quit rolls ot = (preCmd s, false) := rfl

/-- The shape of a non-quit tick. -/
theorem tick_eq (s : GameState) (cmd : Cmd) (rolls : List Bool) (ot : Option Nat)
    (hne : cmd ≠ Cmd.quit) :
    tick s cmd rolls ot =
      if (preCmd s).game_mode == "explore" then exploreStep (preCmd s) cmd
      else if (preCmd s).game_mode == "combat" then
        let c := combatCmd (preCmd s) cmd rolls ot
        if c.2 then
          let s2 := victoryOrEnemy (resolveDefeats c.1 (preCmd s).player.current_location)
          (if s2.player.hp > 0 then environmental s2 else s2, true)
        else c
      else (preCmd s, false) := by
  cases cmd
  case quit => exact absurd rfl hne
  all_goals rfl

/-- C5: `check` returns true iff every clause individually holds (empty list
⇒ true): `has_item` iff some inventory item has the id, `quest_completed`
iff the quest exists with state "completed" (missing quest ⇒ false), unknown
clause types always-true. -/
theorem c5_check_conditions_iff (p : Player) (conds : List Cond) :
    p.check_conditions conds = true ↔ ∀ c ∈ conds, ClauseHolds p c := by
  induction conds with
  | nil => simp [Player.check_conditions]
  | cons c rest ih =>
    cases c with
    | has_item iid =>
      simp only [Player.check_conditions, List.forall_mem_cons]
      by_cases h : p.inventory.any (fun item => item.id == iid)
      · have hc : ClauseHolds p (Cond.has_item iid) := by
          simp only [List.any_eq_true, beq_iff_eq] at h
          simpa [ClauseHolds] using h
        simp [h, ih, hc]
      · have hc : ¬ ClauseHolds p (Cond.has_item iid) := by
          simp only [List.any_eq_true, beq_iff_eq] at h
          simpa [ClauseHolds] using h
        simp [h, hc]
    | quest_completed qid =>
      simp only [Player.check_conditions, List.forall_mem_cons]
      by_cases h : (match dictLookup p.quests qid with
          | some q => q.state == "completed"
          | none => false : Bool)
      · have hc : ClauseHolds p (Cond.quest_completed qid) := by
          simp only [ClauseHolds]
          cases hq : dictLookup p.quests qid with
          | none => rw [hq] at h; simp at h
          | some q =>
            rw [hq] at h
            simp only [beq_iff_eq] at h
            exact ⟨q, rfl, h⟩
        simp [h, ih, hc]
      · have hc : ¬ ClauseHolds p (Cond.quest_completed qid) := by
          simp only [ClauseHolds]
          rintro ⟨q, hq, hstate⟩
          rw [hq] at h
          simp [hstate] at h
        simp [h, hc]
    | other ty =>
      simp only [Player.check_conditions, List.forall_mem_cons, ih, ClauseHolds, true_and]

/-- C8: each drop of a defeated monster is appended to the location's ground
items and reported by name, except that a drop whose id is in the fixed
unique-item set is skipped iff an item with that id already exists in the
player's inventory or among the ground items at the moment that drop is
processed. -/
theorem c8_drops (drops inv ground : List Item) :
    processDrops drops inv ground =
      (ground ++ keptDropsSpec inv ground drops,
       (keptDropsSpec inv ground drops).map Item.name) := by
  suffices h : ∀ (ds g : List Item) (names : List String),
      ds.foldl (dropStep inv) (g, names) =
      (g ++ keptDropsSpec inv g ds, names ++ (keptDropsSpec inv g ds).map Item.name) by
    simpa [processDrops] using h drops ground []
  intro ds
  induction ds with
  | nil => intro g names; simp [keptDropsSpec]
  | cons d rest ih =>
    intro g names
    by_cases hc : uniqueItemIds.contains d.id &&
        (inv.any (fun i => i.id == d.id) || g.any (fun i => i.id == d.id))
    · have hstep : dropStep inv (g, names) d = (g, names) := by
        simp only [dropStep]
        rw [if_pos hc]
      rw [List.foldl_cons, hstep, keptDropsSpec, if_pos hc]
      exact ih g names
    · have hstep : dropStep inv (g, names) d = (g ++ [d], names ++ [d.name]) := by
        simp only [dropStep]
        rw [if_neg hc]
      rw [List.foldl_cons, hstep, keptDropsSpec, if_neg hc,
        ih (g ++ [d]) (names ++ [d.name])]
      simp

/-- C2 counterexample: using a Container whose `contained_items` is already
empty returns the "empty" message, but the Container IS removed from the
player's inventory (the explore-mode `use` branch consumes every
`Potion`/`Container`/`EffectPotion` unconditionally), contradicting the
claim's "the Container is NOT removed". -/
theorem c2_empty_container_consumed :
    (tick c2State (Cmd.use "box_1") [] none).1.message = "You open the Box, but it's empty." ∧
    (tick c2State (Cmd.use "box_1") [] none).1.player.inventory = [] ∧
    c2State.player.inventory =
      [Item.container "box_1" "Box" "A small box." 0 []] :=
  ⟨rfl, rfl, rfl⟩

/-- C2 (amended): one `use` of a Container with non-empty `contained_items`
transfers all contained items into the player's inventory and removes the
Container; a `use` of an already-empty Container returns the "empty" message
and the Container is removed as well (it is consumed unconditionally). -/
theorem c2_container_use (s : GameState) (iid : String) (pre post contained : List Item)
    (cid cn cd : String) (cv : Int)
    (hmode : s.game_mode = "explore") (hnomon : s.curLoc.monsters = [])
    (hsplit : splitAtFirst (fun i => i.id == iid) s.player.inventory =
      some (pre, Item.container cid cn cd cv contained, post)) :
    ((tick s (Cmd.use iid) [] none).1.player.inventory =
      if contained.isEmpty then pre ++ post else (pre ++ post) ++ contained) ∧
    (contained.isEmpty = true →
      (tick s (Cmd.use iid) [] none).1.message = "You open the " ++ cn ++ ", but it's empty.") ∧
    (contained.isEmpty = false →
      (tick s (Cmd.use iid) [] none).1.message =
        "You open the " ++ cn ++ " and find:\n" ++
          String.join (contained.map (fun it => "- " ++ it.name ++ "\n"))) := by
  have htrans : applyTransition s = s := by
    unfold applyTransition
    simp [hmode, hnomon]
  have hstep : tick s (Cmd.use iid) [] none =
      exploreStep { s with message := "" } (Cmd.use iid) := by
    unfold tick
    rw [htrans]
    simp [hmode]
  rw [hstep]
  refine ⟨?_, ?_, ?_⟩
  · simp [exploreStep, hsplit]
  · intro he
    simp [exploreStep, hsplit, containerUse, he]
  · intro he
    simp [exploreStep, hsplit, containerUse, he]

/-- Witness for `c2_container_use`: a Chest holding Apple and Bread, used
once, transfers both into the inventory and is itself removed. -/
theorem c2_container_use_witness :
    ((tick c2FullState (Cmd.use "chest_1") [] none).1.player.inventory =
      if ([Item.base "apple_1" "Apple" "A red apple." 0,
           Item.base "bread_1" "Bread" "A loaf of bread." 0] : List Item).isEmpty then
        ([] : List Item) ++ ([] : List Item)
      else (([] : List Item) ++ ([] : List Item)) ++
        [Item.base "apple_1" "Apple" "A red apple." 0,
         Item.base "bread_1" "Bread" "A loaf of bread." 0]) ∧
    (([Item.base "apple_1" "Apple" "A red apple." 0,
       Item.base "bread_1" "Bread" "A loaf of bread." 0] : List Item).isEmpty = true →
      (tick c2FullState (Cmd.use "chest_1") [] none).1.message =
        "You open the " ++ "Chest" ++ ", but it's empty.") ∧
    (([Item.base "apple_1" "Apple" "A red apple." 0,
       Item.base "bread_1" "Bread" "A loaf of bread." 0] : List Item).isEmpty = false →
      (tick c2FullState (Cmd.use "chest_1") [] none).1.message =
        "You open the " ++ "Chest" ++ " and find:\n" ++
          String.join (([Item.base "apple_1" "Apple" "A red apple." 0,
            Item.base "bread_1" "Bread" "A loaf of bread." 0] : List Item).map
              (fun it => "- " ++ it.name ++ "\n"))) :=
  c2_container_use c2FullState "chest_1" [] []
    [Item.base "apple_1" "Apple" "A red apple." 0,
     Item.base "bread_1" "Bread" "A loaf of bread." 0]
    "chest_1" "Chest" "A wooden chest." 0 rfl rfl rfl

/-- C3: the spawn id computation violates per-location uniqueness.  Load-time
placement with a global counter puts `p:0` in locA and `q:0`, `p:1` in locB;
defeating `q:0` in locB spawns prototype `p` with instance index
`count(ids starting with "p") = 1`, i.e. id `p:1`, which duplicates the id of
the Guard already standing there — even though the source comments the block
with "Find a unique instance ID". -/
theorem c3_spawn_duplicate_instance_id :
    c3Placed = [("locA", [{ c3ProtoP with id := "p:0" }]),
                ("locB", [{ c3ProtoQ with id := "q:0" }, { c3ProtoP with id := "p:1" }])] ∧
    ((tick c3State (Cmd.attack "q:0") [] none).1.getLoc "locB").monsters.map Monster.id =
      ["p:1", "p:1"] ∧
    ¬ (((tick c3State (Cmd.attack "q:0") [] none).1.getLoc "locB").monsters.map
        Monster.id).Nodup := by
  refine ⟨rfl, rfl, ?_⟩
  have h : ((tick c3State (Cmd.attack "q:0") [] none).1.getLoc "locB").monsters.map
      Monster.id = ["p:1", "p:1"] := rfl
  rw [h]
  decide

/-- C4: after any game tick from a state whose status effects all have
positive remaining duration (and whose EffectPotions carry durations >= 1,
as world data does), the player's `status_effects` contains no key with
remaining duration <= 0 — on turn-consuming combat ticks that the player
survives this holds unconditionally, by the decay phase itself.  Moreover,
in the concrete Volcanic scenario, a `fire_resistance` potion of duration 1
drunk in combat prevents that tick's 3-point burn (hp drops only by the
enemy's 2), is removed and reported worn off that same tick, and the next
turn-consuming tick burns for 3 again (26 - 3 = 23). -/
theorem c4_status_decay (s : GameState) (cmd : Cmd) (rolls : List Bool) (ot : Option Nat)
    (h1 : ∀ p ∈ s.player.status_effects, 0 < p.2)
    (h2 : ∀ i ∈ s.player.inventory, EffectDurOk i) :
    (∀ p ∈ (tick s cmd rolls ot).1.player.status_effects, 0 < p.2) ∧
    c4Tick1.player.hp = 28 ∧
    c4Tick1.player.status_effects = [] ∧
    c4Tick1.message =
      "Hero uses the Fire Potion. You feel a strange energy course through you.\nThe Basalt Beast attacks you, dealing 2 damage.\nThe effect of fire resistance has worn off." ∧
    c4Tick2.player.hp = 23 ∧
    c4Tick2.message =
      "You attack the Basalt Beast, dealing 5 damage.\nThe Basalt Beast attacks you, dealing 2 damage.\nThe searing heat of the volcano burns you for 3 damage!" := by
  refine ⟨?_, rfl, rfl, rfl, rfl, rfl⟩
  intro p hp
  by_cases hq : cmd = Cmd.quit
  · subst hq
    rw [tick_quit] at hp
    rw [show (preCmd s, false).1 = preCmd s from rfl, preCmd_player] at hp
    exact h1 p hp
  · rw [tick_eq s cmd rolls ot hq] at hp
    by_cases hex : ((preCmd s).game_mode == "explore") = true
    · rw [if_pos hex] at hp
      rcases exploreStep_player (preCmd s) cmd with ⟨_, hst⟩ | ⟨iid, t, _, hsp, hcases⟩
      · rw [hst, preCmd_player] at hp
        exact h1 p hp
      · rcases hcases with ⟨a, b, c, v, heal, heq, _, hst⟩ |
          ⟨a, b, c, v, eff, dur, heq, _, hst⟩ | ⟨a, b, c, v, dmg, heq, _, hst⟩
        · rw [hst, preCmd_player] at hp
          exact h1 p hp
        · rw [hst, preCmd_player] at hp
          rcases mem_dictInsert _ _ _ _ hp with hpe | hpe
          · have hmem := splitAtFirst_mem _ _ _ hsp
            rw [preCmd_player] at hmem
            have hdur := h2 t.2.1 hmem
            rw [heq] at hdur
            rw [hpe]
            exact hdur
          · exact h1 p hpe
        · rw [hst, preCmd_player] at hp
          exact h1 p hp
    · rw [if_neg hex] at hp
      by_cases hcb : ((preCmd s).game_mode == "combat") = true
      · rw [if_pos hcb] at hp
        dsimp only at hp
        by_cases hturn : (combatCmd (preCmd s) cmd rolls ot).2 = true
        · rw [if_pos hturn] at hp
          set s2 := victoryOrEnemy (resolveDefeats (combatCmd (preCmd s) cmd rolls ot).1
            (preCmd s).player.current_location) with hs2
          by_cases hhp : s2.player.hp > 0
          · rw [if_pos hhp] at hp
            exact decayStep_status_pos (burnStep s2) p hp
          · rw [if_neg hhp] at hp
            have hst2 : s2.player.status_effects =
                (combatCmd (preCmd s) cmd rolls ot).1.player.status_effects := by
              rw [hs2]
              rw [(victoryOrEnemy_frame _).1]
              exact (resolveDefeats_frame _ _).2.1
            replace hp : p ∈ s2.player.status_effects := hp
            rw [hst2] at hp
            rcases combatCmd_player (preCmd s) cmd rolls ot with ⟨_, hst⟩ |
              ⟨iid, t, _, hsp, hcases⟩ | ⟨_, _, hst⟩
            · rw [hst, preCmd_player] at hp
              exact h1 p hp
            · rcases hcases with ⟨a, b, c, v, heal, heq, _, hst⟩ |
                ⟨a, b, c, v, eff, dur, heq, _, hst⟩
              · rw [hst, preCmd_player] at hp
                exact h1 p hp
              · rw [hst, preCmd_player] at hp
                rcases mem_dictInsert _ _ _ _ hp with hpe | hpe
                · have hmem := splitAtFirst_mem _ _ _ hsp
                  rw [preCmd_player] at hmem
                  have hdur := h2 t.2.1 hmem
                  rw [heq] at hdur
                  rw [hpe]
                  exact hdur
                · exact h1 p hpe
            · rw [hst, preCmd_player] at hp
              exact h1 p hp
        · rw [if_neg hturn] at hp
          rcases combatCmd_player (preCmd s) cmd rolls ot with ⟨_, hst⟩ |
            ⟨iid, t, _, hsp, hcases⟩ | ⟨_, _, hst⟩
          · rw [hst, preCmd_player] at hp
            exact h1 p hp
          · rcases hcases with ⟨a, b, c, v, heal, heq, _, hst⟩ |
              ⟨a, b, c, v, eff, dur, heq, _, hst⟩
            · rw [hst, preCmd_player] at hp
              exact h1 p hp
            · rw [hst, preCmd_player] at hp
              rcases mem_dictInsert _ _ _ _ hp with hpe | hpe
              · have hmem := splitAtFirst_mem _ _ _ hsp
                rw [preCmd_player] at hmem
                have hdur := h2 t.2.1 hmem
                rw [heq] at hdur
                rw [hpe]
                exact hdur
              · exact h1 p hpe
          · rw [hst, preCmd_player] at hp
            exact h1 p hp
      · rw [if_neg hcb] at hp
        rw [show ((preCmd s, false) : GameState × Bool).1 = preCmd s from rfl,
          preCmd_player] at hp
        exact h1 p hp

/-- Witness for `c4_status_decay` at a concrete state and command. -/
theorem c4_status_decay_witness :
    (∀ p ∈ (tick c2State Cmd.look [] none).1.player.status_effects, 0 < p.2) ∧
    c4Tick1.player.hp = 28 ∧
    c4Tick1.player.status_effects = [] ∧
    c4Tick1.message =
      "Hero uses the Fire Potion. You feel a strange energy course through you.\nThe Basalt Beast attacks you, dealing 2 damage.\nThe effect of fire resistance has worn off." ∧
    c4Tick2.player.hp = 23 ∧
    c4Tick2.message =
      "You attack the Basalt Beast, dealing 5 damage.\nThe Basalt Beast attacks you, dealing 2 damage.\nThe searing heat of the volcano burns you for 3 damage!" :=
  c4_status_decay c2State Cmd.look [] none
    (fun p hp => absurd hp (List.not_mem_nil p))
    (fun i hi => by rcases List.mem_singleton.mp hi with rfl; trivial)

theorem splitAtFirst_isSome_eq_any (pred : α → Bool) (l : List α) :
    (splitAtFirst pred l).isSome = l.any pred := by
  induction l with
  | nil => simp [splitAtFirst]
  | cons a rest ih =>
    by_cases hp : pred a
    · simp [splitAtFirst, hp]
    · simp [splitAtFirst, hp, ← ih]

theorem getLoc_setMonsters_self (s : GameState) (lid : String) (ms : List Monster) :
    ((s.setMonsters lid ms).getLoc lid).monsters = ms := by
  unfold GameState.setMonsters GameState.setLoc GameState.getLoc
  rw [dictLookup_dictInsert]
  simp

/-- The `player_turn_taken` flag of an `attack` in combat is exactly the
presence test of the target id. -/
theorem combatCmd_attack_flag (s : GameState) (mid : String) (rolls : List Bool)
    (ot : Option Nat) :
    (combatCmd s (Cmd.attack mid) rolls ot).2 =
      s.curLoc.monsters.any (fun m => m.id == mid) := by
  unfold combatCmd
  dsimp only
  rw [← splitAtFirst_isSome_eq_any]
  cases hsp : splitAtFirst (fun m => m.id == mid) s.curLoc.monsters with
  | none => rfl
  | some t => rfl

/-- C6: in combat, `attack <monster-id>` consumes a turn iff a monster with
that id is present in the current location, and a resolved attack deals
exactly `player.attack_power` to the first monster carrying that id, with no
randomness (the result is independent of the roll stream).  In the concrete
scenario, attack power 5 against an Orc with hp 12 leaves it at 7 then at 2
with combat continuing, and the third attack defeats it and triggers the
victory branch (mode back to explore, victory message). -/
theorem c6_attack_resolution (s : GameState) (mid : String) (rolls rolls' : List Bool)
    (ot : Option Nat) (hmode : (applyTransition s).game_mode = "combat") :
    ((tick s (Cmd.attack mid) rolls ot).2 = true ↔
      s.curLoc.monsters.any (fun m => m.id == mid) = true) ∧
    (∀ t, splitAtFirst (fun m => m.id == mid) s.curLoc.monsters = some t →
      ((combatCmd (preCmd s) (Cmd.attack mid) rolls ot).1.curLoc.monsters =
        t.1 ++ [{ t.2.1 with hp := t.2.1.hp - (s.player.attack_power : Int) }] ++ t.2.2)) ∧
    tick s (Cmd.attack mid) rolls ot = tick s (Cmd.attack mid) rolls' ot ∧
    (c6T1.getLoc "pit").monsters.map Monster.hp = [7] ∧
    c6T1.game_mode = "combat" ∧
    c6T1.player.hp = 19 ∧
    (c6T2.getLoc "pit").monsters.map Monster.hp = [2] ∧
    c6T2.game_mode = "combat" ∧
    (c6T3.getLoc "pit").monsters = [] ∧
    c6T3.game_mode = "explore" ∧
    c6T3.message =
      "You attack the Orc, dealing 5 damage.\nYou have defeated the Orc!\n\nVictory! You have defeated all enemies in the The Pit." := by
  have hm' : (preCmd s).game_mode = "combat" := hmode
  have hne : (Cmd.attack mid) ≠ Cmd.quit := by intro h; cases h
  refine ⟨?_, ?_, ?_, rfl, rfl, rfl, rfl, rfl, rfl, rfl, rfl⟩
  · rw [tick_eq s (Cmd.attack mid) rolls ot hne, hm']
    rw [if_neg (by decide), if_pos (by decide)]
    dsimp only
    have hflag : ∀ (c : GameState × Bool) (x : GameState),
        ((if c.2 then (x, true) else c) : GameState × Bool).2 = c.2 := by
      intro c x
      by_cases hc : c.2
      · rw [if_pos hc, hc]
      · rw [if_neg hc]
    rw [hflag, combatCmd_attack_flag, preCmd_curLoc]
  · intro t ht
    unfold combatCmd
    dsimp only
    rw [preCmd_curLoc, ht]
    dsimp only
    rw [show (s.player.attack_power : Int) = ((preCmd s).player.attack_power : Int) from
      by rw [preCmd_player]]
    exact getLoc_setMonsters_self (preCmd s) (preCmd s).player.current_location
      (t.1 ++ [{ t.2.1 with hp := t.2.1.hp - ((preCmd s).player.attack_power : Int) }] ++ t.2.2)
  · rw [tick_eq s (Cmd.attack mid) rolls ot hne, tick_eq s (Cmd.attack mid) rolls' ot hne]
    have hcc : combatCmd (preCmd s) (Cmd.attack mid) rolls ot =
        combatCmd (preCmd s) (Cmd.attack mid) rolls' ot := rfl
    rw [hcc]

/-- Witness for `c6_attack_resolution` at the concrete Orc scenario. -/
theorem c6_attack_resolution_witness :
    ((tick c6State (Cmd.attack "orc:0") [] none).2 = true ↔
      c6State.curLoc.monsters.any (fun m => m.id == "orc:0") = true) ∧
    (∀ t, splitAtFirst (fun m => m.id == "orc:0") c6State.curLoc.monsters = some t →
      ((combatCmd (preCmd c6State) (Cmd.attack "orc:0") [] none).1.curLoc.monsters =
        t.1 ++ [{ t.2.1 with hp := t.2.1.hp - (c6State.player.attack_power : Int) }] ++ t.2.2)) ∧
    tick c6State (Cmd.attack "orc:0") [] none = tick c6State (Cmd.attack "orc:0") [true] none ∧
    (c6T1.getLoc "pit").monsters.map Monster.hp = [7] ∧
    c6T1.game_mode = "combat" ∧
    c6T1.player.hp = 19 ∧
    (c6T2.getLoc "pit").monsters.map Monster.hp = [2] ∧
    c6T2.game_mode = "combat" ∧
    (c6T3.getLoc "pit").monsters = [] ∧
    c6T3.game_mode = "explore" ∧
    c6T3.message =
      "You attack the Orc, dealing 5 damage.\nYou have defeated the Orc!\n\nVictory! You have defeated all enemies in the The Pit." :=
  c6_attack_resolution c6State "orc:0" [] [true] none rfl

theorem getLoc_congr (s s' : GameState) (h : s.locations = s'.locations) (lid : String) :
    s.getLoc lid = s'.getLoc lid := by
  unfold GameState.getLoc
  rw [h]

/-- A surviving retreat: hp drops by the parting-blow total, the player is
back at the previous location, the mode is explore again, and the turn is
consumed.  Locations, inventory and status effects are untouched. -/
theorem combatCmd_retreat_fields (s : GameState) (rolls : List Bool) (ot : Option Nat)
    (hsurv : 0 < s.player.hp - retreatDamage s.curLoc.monsters rolls) :
    (combatCmd s Cmd.retreat rolls ot).1.player.hp =
      s.player.hp - retreatDamage s.curLoc.monsters rolls ∧
    (combatCmd s Cmd.retreat rolls ot).1.player.current_location =
      s.player.previous_location ∧
    (combatCmd s Cmd.retreat rolls ot).1.game_mode = "explore" ∧
    (combatCmd s Cmd.retreat rolls ot).1.locations = s.locations ∧
    (combatCmd s Cmd.retreat rolls ot).1.player.inventory = s.player.inventory ∧
    (combatCmd s Cmd.retreat rolls ot).1.player.status_effects = s.player.status_effects ∧
    (combatCmd s Cmd.retreat rolls ot).2 = true := by
  unfold combatCmd
  dsimp only
  have hf : (s.curLoc.monsters.foldl (retreatStep rolls)
      (0, s.player.hp, "You flee from combat!")).2.1 =
      s.player.hp - retreatDamage s.curLoc.monsters rolls :=
    retreat_foldl_hp rolls s.curLoc.monsters 0 s.player.hp "You flee from combat!"
  rw [if_pos (by rw [GT.gt, hf]; exact hsurv)]
  exact ⟨hf, rfl, rfl, rfl, rfl, rfl, rfl⟩

/-- When every monster in the given location is alive, defeat resolution is
a no-op. -/
theorem resolveDefeats_noop (s : GameState) (lid : String)
    (h : ∀ m ∈ (s.getLoc lid).monsters, 0 < m.hp) : resolveDefeats s lid = s := by
  unfold resolveDefeats
  dsimp only
  have hnil : (s.getLoc lid).monsters.filter (fun m => !m.is_alive) = [] := by
    rw [List.filter_eq_nil_iff]
    intro m hm
    simp [Monster.is_alive, h m hm]
  rw [hnil]
  rfl

theorem victoryOrEnemy_mode_explore (s : GameState) (h : s.game_mode = "explore") :
    (victoryOrEnemy s).game_mode = "explore" := by
  unfold victoryOrEnemy
  dsimp only
  split
  · rfl
  · split
    · rename_i hc
      rw [h] at hc
      simp at hc
    · exact h

/-- C7: on `retreat` each monster of the current location lands its attack
power on the player iff its independent 50% roll hits (roll stream `rolls`,
one per monster in list order); if the player survives, the current location
reverts to the previous location and the mode becomes explore.  With an
always-hit roll source and monsters of attack power 4 and 6, the player's hp
drops by exactly 10 (30 to 20) and the player ends at the previous location. -/
theorem c7_retreat (s : GameState) (rolls : List Bool) (ot : Option Nat)
    (hmode : (applyTransition s).game_mode = "combat")
    (halive : ∀ m ∈ s.curLoc.monsters, 0 < m.hp)
    (hnotvol : (s.getLoc s.player.previous_location).kind ≠ LocKind.volcanic)
    (hsurv : 0 < s.player.hp - retreatDamage s.curLoc.monsters rolls) :
    ((tick s Cmd.retreat rolls ot).1.player.hp =
      s.player.hp - retreatDamage s.curLoc.monsters rolls ∧
     (tick s Cmd.retreat rolls ot).1.player.current_location = s.player.previous_location ∧
     (tick s Cmd.retreat rolls ot).1.game_mode = "explore") ∧
    retreatDamage c7Den.monsters [true, true] = 10 ∧
    (tick c7State Cmd.retreat [true, true] none).1.player.hp = 20 ∧
    (tick c7State Cmd.retreat [true, true] none).1.player.current_location = "camp" ∧
    (tick c7State Cmd.retreat [true, true] none).1.game_mode = "explore" := by
  refine ⟨?_, rfl, rfl, rfl, rfl⟩
  have hne : Cmd.retreat ≠ Cmd.quit := by intro h; cases h
  have hm' : (preCmd s).game_mode = "combat" := hmode
  have hp0 : (preCmd s).player = s.player := preCmd_player s
  have hc0 : (preCmd s).curLoc = s.curLoc := preCmd_curLoc s
  have hsurv0 : 0 < (preCmd s).player.hp - retreatDamage (preCmd s).curLoc.monsters rolls := by
    rw [hp0, hc0]
    exact hsurv
  obtain ⟨rhp, rcur, rmode, rlocs, rinv, rstat, rflag⟩ :=
    combatCmd_retreat_fields (preCmd s) rolls ot hsurv0
  have hres : resolveDefeats (combatCmd (preCmd s) Cmd.retreat rolls ot).1
      (preCmd s).player.current_location = (combatCmd (preCmd s) Cmd.retreat rolls ot).1 := by
    apply resolveDefeats_noop
    intro m hm
    have hgl : (combatCmd (preCmd s) Cmd.retreat rolls ot).1.getLoc
        (preCmd s).player.current_location = s.getLoc s.player.current_location := by
      rw [getLoc_congr (combatCmd (preCmd s) Cmd.retreat rolls ot).1 s
        (by rw [rlocs, preCmd_locations]), hp0]
    rw [hgl] at hm
    exact halive m hm
  set s2 := victoryOrEnemy (resolveDefeats (combatCmd (preCmd s) Cmd.retreat rolls ot).1
    (preCmd s).player.current_location) with hs2
  have hs2c : s2 = victoryOrEnemy (combatCmd (preCmd s) Cmd.retreat rolls ot).1 := by
    rw [hs2, hres]
  obtain ⟨vstat, vinv, vcur, vap, vmax, vlocs, vallm⟩ :=
    victoryOrEnemy_frame (combatCmd (preCmd s) Cmd.retreat rolls ot).1
  have hv_hp : (victoryOrEnemy (combatCmd (preCmd s) Cmd.retreat rolls ot).1).player.hp =
      (combatCmd (preCmd s) Cmd.retreat rolls ot).1.player.hp := by
    rcases victoryOrEnemy_hp (combatCmd (preCmd s) Cmd.retreat rolls ot).1 with
      ⟨h1, _⟩ | ⟨_, h2, _⟩
    · exact h1
    · rw [rmode] at h2
      exact absurd h2 (by decide)
  have hs2hp : s2.player.hp = s.player.hp - retreatDamage s.curLoc.monsters rolls := by
    rw [hs2c, hv_hp, rhp, hp0, hc0]
  have hs2cur : s2.player.current_location = s.player.previous_location := by
    rw [hs2c, vcur, rcur, hp0]
  have hs2mode : s2.game_mode = "explore" := by
    rw [hs2c]
    exact victoryOrEnemy_mode_explore _ rmode
  have hs2locs : s2.locations = s.locations := by
    rw [hs2c, vlocs, rlocs, preCmd_locations]
  have hred : (tick s Cmd.retreat rolls ot).1 =
      (if s2.player.hp > 0 then environmental s2 else s2) := by
    rw [tick_eq s Cmd.retreat rolls ot hne, hm']
    rw [if_neg (by decide), if_pos (by decide)]
    dsimp only
    rw [if_pos rflag]
  have hpos : s2.player.hp > 0 := by
    rw [GT.gt, hs2hp]
    exact hsurv
  rw [hred, if_pos hpos]
  have hcurloc : s2.curLoc = s.getLoc s.player.previous_location := by
    unfold GameState.curLoc
    rw [hs2cur, getLoc_congr s2 s hs2locs]
  have hburn_hp : (burnStep s2).player.hp = s2.player.hp := by
    rcases burnStep_hp s2 with h1 | ⟨hvol, _⟩
    · exact h1
    · rw [hcurloc] at hvol
      exact absurd hvol hnotvol
  obtain ⟨bstat, binv, bcur, bmax, blocs, bmode⟩ := burnStep_frame s2
  obtain ⟨dhp, dinv, dcur, dmax, dlocs, dmode⟩ := decayStep_frame (burnStep s2)
  have henv : environmental s2 = decayStep (burnStep s2) := rfl
  rw [henv]
  refine ⟨?_, ?_, ?_⟩
  · rw [dhp, hburn_hp, hs2hp]
  · rw [dcur, bcur, hs2cur]
  · rw [dmode, bmode, hs2mode]

/-- Witness for `c7_retreat` at the concrete two-monster den scenario. -/
theorem c7_retreat_witness :
    ((tick c7State Cmd.retreat [true, true] none).1.player.hp =
      c7State.player.hp - retreatDamage c7State.curLoc.monsters [true, true] ∧
     (tick c7State Cmd.retreat [true, true] none).1.player.current_location =
      c7State.player.previous_location ∧
     (tick c7State Cmd.retreat [true, true] none).1.game_mode = "explore") ∧
    retreatDamage c7Den.monsters [true, true] = 10 ∧
    (tick c7State Cmd.retreat [true, true] none).1.player.hp = 20 ∧
    (tick c7State Cmd.retreat [true, true] none).1.player.current_location = "camp" ∧
    (tick c7State Cmd.retreat [true, true] none).1.game_mode = "explore" :=
  c7_retreat c7State [true, true] none rfl
    (by intro m hm
        rcases List.mem_cons.mp hm with h | hm2
        · rw [h]; decide
        · rcases List.mem_cons.mp hm2 with h | hm3
          · rw [h]; decide
          · cases hm3)
    (by decide)
    (by decide)

theorem DamagedByPlayer_preCmd (s : GameState) (cmd : Cmd) (m' : Monster)
    (h : DamagedByPlayer (preCmd s) cmd m') : DamagedByPlayer s cmd m' := by
  unfold DamagedByPlayer at h ⊢
  rcases h with ⟨mid, m, hcmd, hmem, heq⟩ | ⟨iid, t, a, b, c, v, dmg, m, hcmd, hsp, hit, hmem, heq⟩
  · refine Or.inl ⟨mid, m, hcmd, ?_, ?_⟩
    · exact (MonsterIn_congr _ _ (preCmd_locations s) m).mp hmem
    · rw [heq, preCmd_player]
  · refine Or.inr ⟨iid, t, a, b, c, v, dmg, m, hcmd, ?_, hit, ?_, heq⟩
    · rw [← preCmd_player]
      exact hsp
    · exact (MonsterIn_congr _ _ (preCmd_locations s) m).mp hmem

theorem MonsterIn_resolveDefeats (s : GameState) (lid : String) (m' : Monster)
    (h : MonsterIn (resolveDefeats s lid) m') : MonsterIn s m' ∨ SpawnCopy s m' := by
  unfold resolveDefeats at h
  dsimp only at h
  split at h
  · exact Or.inl h
  · rcases MonsterIn_setMonsters _ _ _ _ h with h1 | h1
    · have h2 := List.mem_of_mem_filter h1
      split at h2
      · exact MonsterIn_foldl_processDefeated _ _ _ (mem_getLoc_monsters _ _ _ h2)
      · exact Or.inl (mem_getLoc_monsters _ _ _ h2)
    · exact MonsterIn_foldl_processDefeated _ _ _ h1

theorem combatCmd_all_monsters (s : GameState) (cmd : Cmd) (rolls : List Bool)
    (ot : Option Nat) : (combatCmd s cmd rolls ot).1.all_monsters = s.all_monsters := by
  cases cmd <;> (unfold combatCmd; dsimp only) <;> (repeat' split) <;> rfl

theorem environmental_locations (s : GameState) :
    (environmental s).locations = s.locations := by
  rw [show environmental s = decayStep (burnStep s) from rfl,
    (decayStep_frame (burnStep s)).2.2.2.2.1, (burnStep_frame s).2.2.2.2.1]

theorem enemyDamage_nonneg (ms : List Monster) : 0 ≤ enemyDamage ms := by
  induction ms with
  | nil => rw [show enemyDamage [] = 0 from rfl]
  | cons m rest ih =>
    rw [enemyDamage_cons]
    have : (0 : Int) ≤ m.attack_power := Int.ofNat_nonneg m.attack_power
    omega

/-- C1 (amended): over one game tick, every monster present afterwards is
either unchanged from before, or the target of a resolved `attack` /
offensive-item `use` with its hp lowered by exactly that damage, or a
freshly spawned prototype copy; and the player's hp strictly decreases only
on an enemy turn, a retreat parting blow, the volcanic burn — or (the case
the claim as frozen omits) an explore-mode `use` of an OffensiveItem, which
the code applies to the player themself. -/
theorem c1_hp_changes (s : GameState) (cmd : Cmd) (rolls : List Bool) (ot : Option Nat) :
    (∀ m', MonsterIn (tick s cmd rolls ot).1 m' →
        MonsterIn s m' ∨ DamagedByPlayer s cmd m' ∨ SpawnCopy s m') ∧
    ((tick s cmd rolls ot).1.player.hp < s.player.hp →
        EnemyTurnCause s cmd rolls ot ∨ RetreatCause s cmd rolls ∨
        BurnCause s cmd rolls ot ∨ ExploreOffensiveCause s cmd) := by
  constructor
  · intro m' hm'
    by_cases hq : cmd = Cmd.quit
    · subst hq
      rw [tick_quit] at hm'
      exact Or.inl ((MonsterIn_congr _ _ (preCmd_locations s) m').mp hm')
    · rw [tick_eq s cmd rolls ot hq] at hm'
      by_cases hex : ((preCmd s).game_mode == "explore") = true
      · rw [if_pos hex] at hm'
        exact Or.inl ((MonsterIn_congr _ _ (preCmd_locations s) m').mp
          (MonsterIn_exploreStep _ _ _ hm'))
      · rw [if_neg hex] at hm'
        by_cases hcb : ((preCmd s).game_mode == "combat") = true
        · rw [if_pos hcb] at hm'
          dsimp only at hm'
          by_cases hturn : (combatCmd (preCmd s) cmd rolls ot).2 = true
          · rw [if_pos hturn] at hm'
            have hm2 : MonsterIn (victoryOrEnemy
                (resolveDefeats (combatCmd (preCmd s) cmd rolls ot).1
                  (preCmd s).player.current_location)) m' := by
              by_cases hhp : (victoryOrEnemy (resolveDefeats
                  (combatCmd (preCmd s) cmd rolls ot).1
                  (preCmd s).player.current_location)).player.hp > 0
              · rw [if_pos hhp] at hm'
                exact (MonsterIn_congr _ _ (environmental_locations _) m').mp hm'
              · rw [if_neg hhp] at hm'
                exact hm'
            have hm3 : MonsterIn (resolveDefeats (combatCmd (preCmd s) cmd rolls ot).1
                (preCmd s).player.current_location) m' :=
              (MonsterIn_congr _ _ ((victoryOrEnemy_frame _).2.2.2.2.2.1) m').mp hm2
            rcases MonsterIn_resolveDefeats _ _ _ hm3 with h4 | h4
            · rcases MonsterIn_combatCmd _ _ _ _ _ h4 with h5 | h5
              · exact Or.inl ((MonsterIn_congr _ _ (preCmd_locations s) m').mp h5)
              · exact Or.inr (Or.inl (DamagedByPlayer_preCmd s cmd m' h5))
            · refine Or.inr (Or.inr (SpawnCopy_congr _ s ?_ m' h4))
              rw [combatCmd_all_monsters, preCmd_all_monsters]
          · rw [if_neg hturn] at hm'
            rcases MonsterIn_combatCmd _ _ _ _ _ hm' with h5 | h5
            · exact Or.inl ((MonsterIn_congr _ _ (preCmd_locations s) m').mp h5)
            · exact Or.inr (Or.inl (DamagedByPlayer_preCmd s cmd m' h5))
        · rw [if_neg hcb] at hm'
          exact Or.inl ((MonsterIn_congr _ _ (preCmd_locations s) m').mp hm')
  · intro hlt
    by_cases hq : cmd = Cmd.quit
    · subst hq
      rw [tick_quit] at hlt
      rw [show ((preCmd s, false) : GameState × Bool).1 = preCmd s from rfl,
        preCmd_player] at hlt
      exact absurd hlt (lt_irrefl _)
    · rw [tick_eq s cmd rolls ot hq] at hlt
      by_cases hex : ((preCmd s).game_mode == "explore") = true
      · rw [if_pos hex] at hlt
        rcases exploreStep_player (preCmd s) cmd with ⟨hhp, _⟩ | ⟨iid, t, hcmd, hsp, hcases⟩
        · rw [hhp, preCmd_player] at hlt
          exact absurd hlt (lt_irrefl _)
        · rcases hcases with ⟨a, b, c, v, heal, hit, hhp, _⟩ |
            ⟨a, b, c, v, eff, dur, hit, hhp, _⟩ | ⟨a, b, c, v, dmg, hit, hhp, _⟩
          · rw [hhp, preCmd_player] at hlt
            omega
          · rw [hhp, preCmd_player] at hlt
            exact absurd hlt (lt_irrefl _)
          · refine Or.inr (Or.inr (Or.inr ⟨eq_of_beq hex, iid, t, hcmd, ?_, a, b, c, v, dmg,
              hit, ?_⟩))
            · rw [← preCmd_player]
              exact hsp
            · rw [hhp, preCmd_player] at hlt
              omega
      · rw [if_neg hex] at hlt
        by_cases hcb : ((preCmd s).game_mode == "combat") = true
        · rw [if_pos hcb] at hlt
          dsimp only at hlt
          have hmodecb : (applyTransition s).game_mode = "combat" := eq_of_beq hcb
          have hc1lt : (combatCmd (preCmd s) cmd rolls ot).1.player.hp < s.player.hp →
              EnemyTurnCause s cmd rolls ot ∨ RetreatCause s cmd rolls ∨
              BurnCause s cmd rolls ot ∨ ExploreOffensiveCause s cmd := by
            intro hlt'
            rcases combatCmd_player (preCmd s) cmd rolls ot with ⟨hhp, _⟩ |
              ⟨iid, t, hcmd, hsp, hcases⟩ | ⟨hcmd, hhp, _⟩
            · rw [hhp, preCmd_player] at hlt'
              exact absurd hlt' (lt_irrefl _)
            · rcases hcases with ⟨a, b, c, v, heal, hit, hhp, _⟩ |
                ⟨a, b, c, v, eff, dur, hit, hhp, _⟩
              · rw [hhp, preCmd_player] at hlt'
                omega
              · rw [hhp, preCmd_player] at hlt'
                exact absurd hlt' (lt_irrefl _)
            · refine Or.inr (Or.inl ⟨hmodecb, hcmd, ?_⟩)
              rw [hhp, preCmd_player] at hlt'
              omega
          by_cases hturn : (combatCmd (preCmd s) cmd rolls ot).2 = true
          · rw [if_pos hturn] at hlt
            have hmid_hp : (resolveDefeats (combatCmd (preCmd s) cmd rolls ot).1
                (preCmd s).player.current_location).player.hp =
                (combatCmd (preCmd s) cmd rolls ot).1.player.hp :=
              (resolveDefeats_frame _ _).1
            have hs2main : (victoryOrEnemy (resolveDefeats
                (combatCmd (preCmd s) cmd rolls ot).1
                (preCmd s).player.current_location)).player.hp < s.player.hp →
                EnemyTurnCause s cmd rolls ot ∨ RetreatCause s cmd rolls ∨
                BurnCause s cmd rolls ot ∨ ExploreOffensiveCause s cmd := by
              intro hlt2
              rcases victoryOrEnemy_hp (resolveDefeats (combatCmd (preCmd s) cmd rolls ot).1
                  (preCmd s).player.current_location) with ⟨vh, _⟩ | ⟨hne', hcmode, vh⟩
              · rw [vh, hmid_hp] at hlt2
                exact hc1lt hlt2
              · by_cases hE : 0 < enemyDamage (resolveDefeats
                    (combatCmd (preCmd s) cmd rolls ot).1
                    (preCmd s).player.current_location).curLoc.monsters
                · exact Or.inl ⟨hmodecb, hturn, hne', hcmode, hE⟩
                · have hE0 : enemyDamage (resolveDefeats
                      (combatCmd (preCmd s) cmd rolls ot).1
                      (preCmd s).player.current_location).curLoc.monsters = 0 := by
                    have := enemyDamage_nonneg (resolveDefeats
                      (combatCmd (preCmd s) cmd rolls ot).1
                      (preCmd s).player.current_location).curLoc.monsters
                    omega
                  rw [vh, hE0, hmid_hp] at hlt2
                  exact hc1lt (by omega)
            by_cases hhp2 : (victoryOrEnemy (resolveDefeats
                (combatCmd (preCmd s) cmd rolls ot).1
                (preCmd s).player.current_location)).player.hp > 0
            · rw [if_pos hhp2] at hlt
              rw [show environmental (victoryOrEnemy (resolveDefeats
                  (combatCmd (preCmd s) cmd rolls ot).1
                  (preCmd s).player.current_location)) =
                decayStep (burnStep (victoryOrEnemy (resolveDefeats
                  (combatCmd (preCmd s) cmd rolls ot).1
                  (preCmd s).player.current_location))) from rfl,
                (decayStep_frame _).1] at hlt
              rcases burnStep_hp (victoryOrEnemy (resolveDefeats
                  (combatCmd (preCmd s) cmd rolls ot).1
                  (preCmd s).player.current_location)) with hb | ⟨hvol, harm, hres, hb⟩
              · rw [hb] at hlt
                exact hs2main hlt
              · refine Or.inr (Or.inr (Or.inl ⟨hmodecb, hturn, hvol, ?_, hres⟩))
                intro hcontra
                have hcontra' : ((victoryOrEnemy (resolveDefeats
                    (combatCmd (preCmd s) cmd rolls ot).1
                    (preCmd s).player.current_location)).player.inventory.any
                    (fun item => item.name == "Fireproof Armor")) = true := hcontra
                rw [harm] at hcontra'
                cases hcontra'
            · rw [if_neg hhp2] at hlt
              exact hs2main hlt
          · rw [if_neg hturn] at hlt
            exact hc1lt hlt
        · rw [if_neg hcb] at hlt
          rw [show ((preCmd s, false) : GameState × Bool).1 = preCmd s from rfl,
            preCmd_player] at hlt
          exact absurd hlt (lt_irrefl _)

/-- C1 counterexample: in explore mode, with no monster anywhere in the
world, a non-volcanic location and a non-retreat command, `use bomb_1`
(an OffensiveItem) lowers the player's hp from 20 to 19 — `item.use(player)`
applies the bomb's damage to the player.  None of the claim's admissible
causes (enemy turn, retreat parting blow, volcanic burn) can apply. -/
theorem c1_explore_offensive_lowers_hp :
    (tick c1State (Cmd.use "bomb_1") [] none).1.player.hp = 19 ∧
    c1State.player.hp = 20 ∧
    c1State.game_mode = "explore" ∧
    (tick c1State (Cmd.use "bomb_1") [] none).1.game_mode = "explore" ∧
    c1State.locations.map (fun p => p.2.monsters) = [[]] ∧
    (tick c1State (Cmd.use "bomb_1") [] none).1.locations.map (fun p => p.2.monsters) = [[]] ∧
    (c1State.getLoc c1State.player.current_location).kind = LocKind.city ∧
    Cmd.use "bomb_1" ≠ Cmd.retreat :=
  ⟨rfl, rfl, rfl, rfl, rfl, rfl, rfl, by decide⟩

/-- Witness for `c1_hp_changes`: the monster clause applied to the Orc after
one resolved attack, and the hp clause applied to the explore-mode
offensive-item tick. -/
theorem c1_hp_changes_witness :
    (MonsterIn c6State { c6Orc with hp := 7 } ∨
     DamagedByPlayer c6State (Cmd.attack "orc:0") { c6Orc with hp := 7 } ∨
     SpawnCopy c6State { c6Orc with hp := 7 }) ∧
    (EnemyTurnCause c1State (Cmd.use "bomb_1") [] none ∨
     RetreatCause c1State (Cmd.use "bomb_1") [] ∨
     BurnCause c1State (Cmd.use "bomb_1") [] none ∨
     ExploreOffensiveCause c1State (Cmd.use "bomb_1")) :=
  ⟨(c1_hp_changes c6State (Cmd.attack "orc:0") [] none).1 { c6Orc with hp := 7 }
      ⟨"pit", (tick c6State (Cmd.attack "orc:0") [] none).1.getLoc "pit", rfl,
        List.mem_cons_self _ _⟩,
   (c1_hp_changes c1State (Cmd.use "bomb_1") [] none).2 (by decide)⟩

/-! ### C9: map generation is deterministic -/

theorem dictInsertList_cons (l : Dict α) (p : String × α) (e : List (String × α)) :
    dictInsertList l (p :: e) = dictInsertList (dictInsert l p.1 p.2) e := rfl

/-- Re-inserting a key with the value it already has leaves the dict unchanged. -/
theorem dictInsert_lookup_self (l : Dict α) (k : String) (v : α)
    (h : dictLookup l k = some v) : dictInsert l k v = l := by
  induction l with
  | nil => simp [dictLookup] at h
  | cons p rest ih =>
    obtain ⟨k', v'⟩ := p
    by_cases h1 : k' = k
    · subst h1
      simp only [dictLookup, if_pos rfl] at h
      injection h with h
      subst h
      simp [dictInsert]
    · simp only [dictLookup, h1, if_false] at h
      simp [dictInsert, h1, ih h]

theorem dictInsertList_self (l : Dict α) (e : List (String × α))
    (h : ∀ p ∈ e, dictLookup l p.1 = some p.2) : dictInsertList l e = l := by
  induction e with
  | nil => rfl
  | cons p e ih =>
    rw [dictInsertList_cons,
      dictInsert_lookup_self l p.1 p.2 (h p (List.mem_cons_self _ _))]
    exact ih fun q hq => h q (List.mem_cons_of_mem _ hq)

theorem dictLookup_insertList_not_key (e : List (String × α)) (k : String)
    (h : ∀ p ∈ e, p.1 ≠ k) (l : Dict α) :
    dictLookup (dictInsertList l e) k = dictLookup l k := by
  induction e generalizing l with
  | nil => rfl
  | cons p e ih =>
    rw [dictInsertList_cons, ih (fun q hq => h q (List.mem_cons_of_mem _ hq)),
      dictLookup_dictInsert, if_neg (h p (List.mem_cons_self _ _))]

/-- If every entry of `e` carries the value `f key`, inserting all of `e`
stores `f k` under any key `k` that occurs in `e`. -/
theorem dictLookup_insertList_fn (f : String → α) (e : List (String × α))
    (hf : ∀ p ∈ e, p.2 = f p.1) (k : String)
    (hmem : ∃ v, (k, v) ∈ e) (l : Dict α) :
    dictLookup (dictInsertList l e) k = some (f k) := by
  induction e generalizing l with
  | nil => exact absurd hmem.choose_spec (List.not_mem_nil _)
  | cons p e ih =>
    rw [dictInsertList_cons]
    by_cases hk : ∃ v, (k, v) ∈ e
    · exact ih (fun q hq => hf q (List.mem_cons_of_mem _ hq)) hk _
    · obtain ⟨v, hv⟩ := hmem
      rcases List.mem_cons.mp hv with heq | hmem'
      · subst heq
        have hnk : ∀ q ∈ e, q.1 ≠ k := by
          intro q hq hqk
          exact hk ⟨q.2, by rw [← hqk]; exact hq⟩
        rw [dictLookup_insertList_not_key e k hnk, dictLookup_dictInsert, if_pos rfl,
          hf (k, v) (List.mem_cons_self _ _)]
      · exact absurd ⟨v, hmem'⟩ hk

/-- The mutating BFS equals pouring the graph-independent entry stream into
the incoming dict. -/
theorem buildGraphGo_eq (alls : Dict Location) (player : Player) :
    ∀ (fuel : Nat) (q visited : List String) (g : Dict (Dict String)),
      buildGraphGo alls player fuel q visited g =
        dictInsertList g (buildEntries alls player fuel q visited) := by
  intro fuel
  induction fuel with
  | zero => intro q visited g; rfl
  | succ n ih =>
    intro q visited g
    cases q with
    | nil => rfl
    | cons cid qrest =>
      cases hl : dictLookup alls cid with
      | none =>
        simp only [buildGraphGo, buildEntries, hl]
        exact ih qrest visited g
      | some loc =>
        simp only [buildGraphGo, buildEntries, hl]
        rw [dictInsertList_cons]
        exact ih _ _ _

/-- Every entry the BFS stores has the value determined by its key alone. -/
theorem buildEntries_val (alls : Dict Location) (player : Player) :
    ∀ (fuel : Nat) (q visited : List String) (p : String × Dict String),
      p ∈ buildEntries alls player fuel q visited → p.2 = aexitsOf alls player p.1 := by
  intro fuel
  induction fuel with
  | zero =>
    intro q visited p hp
    simp [buildEntries] at hp
  | succ n ih =>
    intro q visited p hp
    cases q with
    | nil => simp [buildEntries] at hp
    | cons cid qrest =>
      cases hl : dictLookup alls cid with
      | none =>
        simp only [buildEntries, hl] at hp
        exact ih _ _ _ hp
      | some loc =>
        simp only [buildEntries, hl] at hp
        rcases List.mem_cons.mp hp with heq | hmem
        · subst heq
          simp [aexitsOf, hl]
        · exact ih _ _ _ hmem

/-- `_build_accessible_graph` is idempotent on `self.accessible_graph`:
running it a second time re-stores every key with the value it already has. -/
theorem buildGraph_idem (alls : Dict Location) (player : Player) (g : Dict (Dict String)) :
    buildGraph alls player (buildGraph alls player g) = buildGraph alls player g := by
  unfold buildGraph
  rw [buildGraphGo_eq, buildGraphGo_eq]
  apply dictInsertList_self
  intro p hp
  rw [buildEntries_val alls player _ _ _ p hp]
  exact dictLookup_insertList_fn (aexitsOf alls player) _
    (fun q hq => buildEntries_val alls player _ _ _ q hq) p.1 ⟨p.2, hp⟩ g

/-- The rendered string depends on the carried object state only through the
graph the BFS produces from it. -/
theorem generate_fst_congr (alls : Dict Location) (player : Player) (m m' : AsciiMap)
    (h : buildGraph alls player m.accessible_graph =
      buildGraph alls player m'.accessible_graph) :
    (AsciiMap.generate alls player m).1 = (AsciiMap.generate alls player m').1 := by
  unfold AsciiMap.generate
  dsimp only
  rw [h]
  split_ifs with hc
  · rfl
  · rfl

/-- C9: map generation is deterministic.  For a fixed world table and player
state, calling `generate` again on the object state the first call left
behind (its mutated `accessible_graph` and `coords`) produces a byte-identical
output string; with no randomness anywhere in the pipeline, consecutive
renders with no intervening state change coincide. -/
theorem c9_map_deterministic (alls : Dict Location) (player : Player) (m : AsciiMap) :
    (AsciiMap.generate alls player ((AsciiMap.generate alls player m).2)).1 =
      (AsciiMap.generate alls player m).1 := by
  apply generate_fst_congr
  have hsnd : ((AsciiMap.generate alls player m).2).accessible_graph =
      buildGraph alls player m.accessible_graph := by
    unfold AsciiMap.generate
    dsimp only
    split_ifs with hc
    · rfl
    · rfl
  rw [hsnd, buildGraph_idem]

/-! ### C10 helper lemmas: no function of the engine reads `max_hp`.
`max_hp` is written once in `Character.__init__` and never read again, so the
whole tick commutes with overwriting it.  The lemmas below push a
`max_hp := k` update through every player-reading function. -/

theorem check_conditions_maxhp (p : Player) (k : Int) (conds : List Cond) :
    Player.check_conditions { p with max_hp := k } conds = p.check_conditions conds := by
  induction conds with
  | nil => rfl
  | cons c rest ih =>
    cases c with
    | has_item iid => simp only [Player.check_conditions, ih]
    | quest_completed qid => simp only [Player.check_conditions, ih]
    | other t => simp only [Player.check_conditions, ih]

theorem baseDescribe_maxhp (loc : Location) (p : Player) (k : Int) :
    loc.baseDescribe { p with max_hp := k } = loc.baseDescribe p := by
  unfold Location.baseDescribe
  simp only [check_conditions_maxhp]

theorem describe_maxhp (loc : Location) (p : Player) (k : Int) :
    loc.describe { p with max_hp := k } = loc.describe p := by
  unfold Location.describe
  cases hk : loc.kind <;>
    simp only [baseDescribe_maxhp]

theorem discover_maxhp (p : Player) (k : Int) :
    Player.discover { p with max_hp := k } = { p.discover with max_hp := k } := by
  unfold Player.discover
  dsimp only
  split_ifs with h
  · rfl
  · rfl

theorem move_maxhp (p : Player) (k : Int) (locs : Dict Location) (d : String) :
    Player.move { p with max_hp := k } locs d =
      ({ (p.move locs d).1 with max_hp := k }, (p.move locs d).2) := by
  unfold Player.move
  dsimp only
  simp only [check_conditions_maxhp]
  cases h1 : dictLookup locs p.current_location with
  | none => rfl
  | some loc =>
    dsimp only
    cases h2 : dictLookup loc.exits d with
    | some dest =>
      dsimp only
      congr 1
      exact discover_maxhp
        { p with previous_location := p.current_location, current_location := dest } k
    | none =>
      dsimp only
      cases h3 : loc.conditional_exits.find?
          (fun ce => ce.direction == d && p.check_conditions ce.conditions) with
      | some ce =>
        dsimp only
        congr 1
        exact discover_maxhp
          { p with previous_location := p.current_location,
                   current_location := ce.destination } k
      | none => rfl

theorem aexitsOfLoc_maxhp (p : Player) (k : Int) (loc : Location) :
    aexitsOfLoc { p with max_hp := k } loc = aexitsOfLoc p loc := by
  unfold aexitsOfLoc
  simp only [check_conditions_maxhp]

theorem buildGraphGo_maxhp (alls : Dict Location) (p : Player) (k : Int) :
    ∀ (fuel : Nat) (q visited : List String) (g : Dict (Dict String)),
      buildGraphGo alls { p with max_hp := k } fuel q visited g =
        buildGraphGo alls p fuel q visited g := by
  intro fuel
  induction fuel with
  | zero => intro q visited g; rfl
  | succ n ih =>
    intro q visited g
    cases q with
    | nil => rfl
    | cons cid qrest =>
      cases hl : dictLookup alls cid with
      | none =>
        simp only [buildGraphGo, hl]
        exact ih qrest visited g
      | some loc =>
        simp only [buildGraphGo, hl, aexitsOfLoc_maxhp]
        exact ih _ _ _

theorem buildGraph_maxhp (alls : Dict Location) (p : Player) (k : Int)
    (g : Dict (Dict String)) :
    buildGraph alls { p with max_hp := k } g = buildGraph alls p g := by
  unfold buildGraph
  dsimp only
  exact buildGraphGo_maxhp alls p k _ _ _ g

theorem assignCoordinates_maxhp (p : Player) (k : Int) (g : Dict (Dict String)) :
    assignCoordinates { p with max_hp := k } g = assignCoordinates p g := by
  unfold assignCoordinates
  dsimp only

theorem visibleLocations_maxhp (p : Player) (k : Int) (g : Dict (Dict String)) :
    visibleLocations { p with max_hp := k } g = visibleLocations p g := by
  unfold visibleLocations
  dsimp only

theorem renderMap_maxhp (alls : Dict Location) (p : Player) (k : Int)
    (g : Dict (Dict String)) (coords : Dict (Int × Int)) (visible : List String) :
    renderMap alls { p with max_hp := k } g coords visible =
      renderMap alls p g coords visible := by
  unfold renderMap
  dsimp only

theorem generate_maxhp (alls : Dict Location) (p : Player) (k : Int) (m : AsciiMap) :
    AsciiMap.generate alls { p with max_hp := k } m = AsciiMap.generate alls p m := by
  unfold AsciiMap.generate
  dsimp only
  rw [buildGraph_maxhp, assignCoordinates_maxhp, visibleLocations_maxhp, renderMap_maxhp]

theorem find_ext (l : List α) (f g : α → Bool) (h : ∀ a, f a = g a) :
    l.find? f = l.find? g := by
  rw [funext h]

/-- `check_conditions` at constructor level: the `max_hp` slot is never read,
so it can be normalised to `0` on both sides of an alignment. -/
theorem check_conditions_zero (a b : String) (c mk : Int) (e : Nat) (f : List Item)
    (g h : String) (i : Dict Int) (j : Dict Quest) (l : List String) (conds : List Cond) :
    Player.check_conditions ⟨a, b, c, mk, e, f, g, h, i, j, l⟩ conds =
      Player.check_conditions ⟨a, b, c, 0, e, f, g, h, i, j, l⟩ conds :=
  (check_conditions_maxhp ⟨a, b, c, mk, e, f, g, h, i, j, l⟩ 0 conds).symm

/-- `Container.use`'s message does not depend on the target. -/
theorem containerUse_fst (cname : String) (contained : List Item) (target : Player) :
    (containerUse cname contained target).1 =
      if contained.isEmpty then "You open the " ++ cname ++ ", but it's empty."
      else "You open the " ++ cname ++ " and find:\n" ++
        String.join (contained.map (fun it => "- " ++ it.name ++ "\n")) := by
  unfold containerUse
  split_ifs with h
  · rfl
  · rfl

theorem setMaxHp_game_mode (s : GameState) (k : Int) :
    (setMaxHp s k).game_mode = s.game_mode := rfl

theorem setMaxHp_message (s : GameState) (k : Int) :
    (setMaxHp s k).message = s.message := rfl

theorem setMaxHp_getLoc (s : GameState) (k : Int) (lid : String) :
    (setMaxHp s k).getLoc lid = s.getLoc lid := rfl

theorem setMaxHp_curLoc (s : GameState) (k : Int) :
    (setMaxHp s k).curLoc = s.curLoc := rfl

theorem setMaxHp_player_hp (s : GameState) (k : Int) :
    (setMaxHp s k).player.hp = s.player.hp := rfl

theorem setMaxHp_player_current (s : GameState) (k : Int) :
    (setMaxHp s k).player.current_location = s.player.current_location := rfl

theorem setMaxHp_player_inventory (s : GameState) (k : Int) :
    (setMaxHp s k).player.inventory = s.player.inventory := rfl

theorem setMaxHp_player_status (s : GameState) (k : Int) :
    (setMaxHp s k).player.status_effects = s.player.status_effects := rfl

theorem setMaxHp_with_message (s : GameState) (k : Int) (m : String) :
    ({ setMaxHp s k with message := m } : GameState) = setMaxHp { s with message := m } k := rfl

theorem setMaxHp_setMonsters (s : GameState) (k : Int) (lid : String) (ms : List Monster) :
    (setMaxHp s k).setMonsters lid ms = setMaxHp (s.setMonsters lid ms) k := rfl

theorem applyTransition_setMaxHp (s : GameState) (k : Int) :
    applyTransition (setMaxHp s k) = setMaxHp (applyTransition s) k := by
  unfold applyTransition setMaxHp GameState.curLoc GameState.getLoc
  try dsimp only
  split_ifs with h
  · rfl
  · rfl

theorem exploreStep_setMaxHp (s : GameState) (k : Int) (cmd : Cmd) :
    exploreStep (setMaxHp s k) cmd =
      (setMaxHp (exploreStep s cmd).1 k, (exploreStep s cmd).2) := by
  cases cmd with
  | look =>
    simp only [exploreStep, setMaxHp, GameState.curLoc, GameState.getLoc]
    try dsimp only
    simp only [describe_maxhp]
  | map =>
    simp only [exploreStep, setMaxHp]
    try dsimp only
    simp only [generate_maxhp]
  | go d =>
    simp only [exploreStep, setMaxHp]
    try dsimp only
    simp only [move_maxhp]
  | get iid =>
    simp only [exploreStep, setMaxHp, GameState.curLoc, GameState.getLoc, GameState.setItems,
      GameState.setLoc]
    try dsimp only
    split
    · rfl
    · rfl
  | inventory =>
    simp only [exploreStep, setMaxHp]
  | talk nid =>
    simp only [exploreStep, setMaxHp, GameState.curLoc, GameState.getLoc, GameState.setNpcs,
      GameState.setLoc]
    try dsimp only
    split
    · rfl
    · split_ifs <;> try dsimp only
      all_goals simp only [check_conditions_maxhp, check_conditions_zero]
  | use iid =>
    simp only [exploreStep, setMaxHp, potionUse, effectPotionUse, offensiveUseP,
      containerUse_fst]
    try dsimp only
    split
    · rfl
    · split
      · rfl
      · rfl
      · rfl
      · rfl
      · rfl
  | attack mid => rfl
  | retreat => rfl
  | quit => rfl

theorem combatCmd_setMaxHp (s : GameState) (k : Int) (cmd : Cmd) (rolls : List Bool)
    (ot : Option Nat) :
    combatCmd (setMaxHp s k) cmd rolls ot =
      (setMaxHp (combatCmd s cmd rolls ot).1 k, (combatCmd s cmd rolls ot).2) := by
  cases cmd with
  | attack mid =>
    simp only [combatCmd, setMaxHp, GameState.curLoc, GameState.getLoc, GameState.setMonsters,
      GameState.setLoc]
    try dsimp only
    split
    · rfl
    · rfl
  | use iid =>
    simp only [combatCmd, setMaxHp, GameState.curLoc, GameState.getLoc, GameState.setMonsters,
      GameState.setLoc, potionUse, effectPotionUse, offensiveUseM]
    try dsimp only
    split
    · rfl
    · split
      · split
        · rfl
        · rfl
      · rfl
      · rfl
      · rfl
  | retreat =>
    simp only [combatCmd, setMaxHp, GameState.curLoc, GameState.getLoc]
    try dsimp only
    split_ifs with h
    · rfl
    · rfl
  | look => rfl
  | map => rfl
  | go d => rfl
  | get iid => rfl
  | inventory => rfl
  | talk nid => rfl
  | quit => rfl

theorem defeatQuestStep_setMaxHp (s : GameState) (k : Int) (m : Monster) :
    defeatQuestStep (setMaxHp s k) m = setMaxHp (defeatQuestStep s m) k := by
  unfold defeatQuestStep setMaxHp
  try dsimp only
  split
  · split
    · split_ifs with h
      · rfl
      · rfl
    · rfl
  · rfl

theorem defeatDropsStep_setMaxHp (s : GameState) (k : Int) (m : Monster) :
    defeatDropsStep (setMaxHp s k) m = setMaxHp (defeatDropsStep s m) k := by
  unfold defeatDropsStep setMaxHp GameState.setItems GameState.setLoc GameState.getLoc
  try dsimp only
  split_ifs with h1 h2
  · rfl
  · rfl
  · rfl

theorem defeatSpawnStep_setMaxHp (s : GameState) (k : Int) (m : Monster) :
    defeatSpawnStep (setMaxHp s k) m = setMaxHp (defeatSpawnStep s m) k := by
  unfold defeatSpawnStep setMaxHp GameState.setMonsters GameState.setLoc GameState.getLoc
  try dsimp only
  split
  · split
    · rfl
    · rfl
  · rfl

theorem processDefeated_setMaxHp (s : GameState) (k : Int) (m : Monster) :
    processDefeatedMonster (setMaxHp s k) m = setMaxHp (processDefeatedMonster s m) k := by
  unfold processDefeatedMonster
  simp only [setMaxHp_message, setMaxHp_with_message]
  rw [defeatQuestStep_setMaxHp, defeatDropsStep_setMaxHp, defeatSpawnStep_setMaxHp]

theorem foldl_processDefeated_setMaxHp (l : List Monster) (s : GameState) (k : Int) :
    l.foldl processDefeatedMonster (setMaxHp s k) =
      setMaxHp (l.foldl processDefeatedMonster s) k := by
  induction l generalizing s with
  | nil => rfl
  | cons m rest ih =>
    rw [List.foldl_cons, List.foldl_cons, processDefeated_setMaxHp]
    exact ih _

theorem resolveDefeats_setMaxHp (s : GameState) (k : Int) (cid : String) :
    resolveDefeats (setMaxHp s k) cid = setMaxHp (resolveDefeats s cid) k := by
  unfold resolveDefeats
  try dsimp only
  simp only [setMaxHp_getLoc]
  rw [foldl_processDefeated_setMaxHp]
  simp only [setMaxHp_player_current, setMaxHp_getLoc, setMaxHp_setMonsters]
  split_ifs with h1 h2
  · rfl
  · rfl
  · rfl

theorem victoryOrEnemy_setMaxHp (s : GameState) (k : Int) :
    victoryOrEnemy (setMaxHp s k) = setMaxHp (victoryOrEnemy s) k := by
  unfold victoryOrEnemy
  try dsimp only
  simp only [setMaxHp_curLoc, setMaxHp_game_mode, setMaxHp_player_hp, setMaxHp_message]
  split_ifs with h1 h2
  · rfl
  · rfl
  · rfl

theorem burnStep_setMaxHp (s : GameState) (k : Int) :
    burnStep (setMaxHp s k) = setMaxHp (burnStep s) k := by
  unfold burnStep
  try dsimp only
  simp only [setMaxHp_curLoc, setMaxHp_player_inventory, setMaxHp_player_status,
    setMaxHp_player_hp, setMaxHp_message]
  split_ifs with h1 h2
  · rfl
  · rfl
  · rfl

theorem decayStep_setMaxHp (s : GameState) (k : Int) :
    decayStep (setMaxHp s k) = setMaxHp (decayStep s) k := by
  unfold decayStep
  try dsimp only
  simp only [setMaxHp_player_status, setMaxHp_message]
  split_ifs with h
  · rfl
  · rfl

theorem environmental_setMaxHp (s : GameState) (k : Int) :
    environmental (setMaxHp s k) = setMaxHp (environmental s) k := by
  unfold environmental
  rw [burnStep_setMaxHp, decayStep_setMaxHp]

set_option maxHeartbeats 2000000 in
theorem tick_setMaxHp (s : GameState) (k : Int) (cmd : Cmd) (rolls : List Bool)
    (ot : Option Nat) :
    tick (setMaxHp s k) cmd rolls ot =
      (setMaxHp (tick s cmd rolls ot).1 k, (tick s cmd rolls ot).2) := by
  unfold tick
  dsimp only
  rw [applyTransition_setMaxHp, setMaxHp_with_message]
  generalize ({ applyTransition s with message := "" } : GameState) = s0
  cases cmd
  case quit => rfl
  all_goals
    try dsimp only
    simp only [setMaxHp_game_mode]
    rw [exploreStep_setMaxHp, combatCmd_setMaxHp]
    try dsimp only
    simp only [setMaxHp_player_current]
    rw [resolveDefeats_setMaxHp, victoryOrEnemy_setMaxHp]
    simp only [setMaxHp_player_hp]
    rw [environmental_setMaxHp]
    split_ifs <;> rfl

/-- C10: using a Potion adds `heal_amount` to the target's hp unconditionally
and hp is never clamped to `max_hp`.  (1) `Potion.use` adds exactly
`heal_amount` to the target's hp and leaves `max_hp` unchanged, with no
condition on the current hp.  (2) Concretely, a player at full health
(hp = max_hp = 20) drinking a 5-point potion ends the tick at hp 25 > 20,
and the excess persists through a further tick.  (3) `max_hp` is written once
at construction and never read: a whole game tick commutes with overwriting
`max_hp`, so no operation of the program can clamp hp back down to it.
(4) No tick ever changes `max_hp`. -/
theorem c10_no_hp_clamp :
    (∀ (nm : String) (heal : Nat) (target : Player),
        (potionUse nm heal target).2.hp = target.hp + heal ∧
        (potionUse nm heal target).2.max_hp = target.max_hp) ∧
    ((tick c10State (Cmd.use "hp_1") [] none).1.player.hp = 25 ∧
     (tick c10State (Cmd.use "hp_1") [] none).1.player.max_hp = 20 ∧
     (tick (tick c10State (Cmd.use "hp_1") [] none).1 Cmd.look [] none).1.player.hp = 25 ∧
     c10State.player.hp = 20 ∧ c10State.player.max_hp = 20) ∧
    (∀ (s : GameState) (k : Int) (cmd : Cmd) (rolls : List Bool) (ot : Option Nat),
        tick (setMaxHp s k) cmd rolls ot =
          (setMaxHp (tick s cmd rolls ot).1 k, (tick s cmd rolls ot).2)) ∧
    (∀ (s : GameState) (cmd : Cmd) (rolls : List Bool) (ot : Option Nat),
        (tick s cmd rolls ot).1.player.max_hp = s.player.max_hp) := by
  refine ⟨fun nm heal target => ⟨rfl, rfl⟩, ⟨rfl, rfl, rfl, rfl, rfl⟩, tick_setMaxHp, ?_⟩
  intro s cmd rolls ot
  exact congrArg (fun t => t.1.player.max_hp) (tick_setMaxHp s s.player.max_hp cmd rolls ot)

end RPG

